import Mathlib

/-!
Verification of the technical-analysis / trading-signal core of the
Financial-Market-Predictor repository.

The TypeScript source is shallowly embedded: JavaScript numbers are modelled
as exact rationals (the claims under scrutiny concern control flow, list
structure and order comparisons, none of which depend on floating-point
rounding), JavaScript arrays are Lean lists, out-of-bounds reads are `Option`
lookups, and a function that can throw a `TypeError` is given an
`Option`-valued embedding in which `none` models the throw.  `Math.sqrt`,
which appears only in the Bollinger-band standard deviation, is kept as an
uninterpreted parameter `(sqrtFn : Rat -> Rat)`.  Timestamps are carried as
natural numbers; the source only copies them around.

The standard `Rat` arithmetic operations of this toolchain are marked
irreducible, which would block kernel evaluation of the embedding on concrete
inputs, so the embedding uses the wrappers `qadd`, `qsub`, `qmul`, `qdiv`,
`qabs`, `qmax`, `qmin`, `qsum` built directly on `Rat.divInt`.  Each wrapper
is proved equal to the corresponding standard operation (`qadd_eq` and
friends below), so every definition can be read with ordinary rational
arithmetic in place of the wrappers.  Decimal literals of the source appear
as explicit fractions `q n d` for the same reason.
-/

set_option maxHeartbeats 1000000
set_option maxRecDepth 100000

/-- The rational `n / d` (used for the decimal literals of the source, e.g.
`q 2 10000` for `0.0002`). -/
def q (n d : Int) : Rat := Rat.divInt n d

/-- Reducible rational addition (equal to `+` by `qadd_eq`). -/
def qadd (a b : Rat) : Rat := Rat.divInt (a.num * b.den + b.num * a.den) (a.den * b.den)

/-- Reducible rational subtraction (equal to `-` by `qsub_eq`). -/
def qsub (a b : Rat) : Rat := Rat.divInt (a.num * b.den - b.num * a.den) (a.den * b.den)

/-- Reducible rational multiplication (equal to `*` by `qmul_eq`). -/
def qmul (a b : Rat) : Rat := Rat.divInt (a.num * b.num) (a.den * b.den)

/-- Reducible rational division (equal to `/` by `qdiv_eq`; division by zero
yields zero on both sides). -/
def qdiv (a b : Rat) : Rat := Rat.divInt (a.num * b.den) (a.den * b.num)

/-- Reducible absolute value (`Math.abs`). -/
def qabs (a : Rat) : Rat := if a < 0 then -a else a

/-- Reducible maximum (`Math.max`). -/
def qmax (a b : Rat) : Rat := if a < b then b else a

/-- Reducible minimum (`Math.min`). -/
def qmin (a b : Rat) : Rat := if a < b then a else b

/-- Reducible left-fold sum, exactly the source's
`reduce((acc, x) => acc + x, 0)`. -/
def qsum (l : List Rat) : Rat := l.foldl qadd 0

theorem ratNumCast_eq (a : Rat) : (a.num : Rat) = a * a.den := by
  have ea := Rat.num_div_den a
  rwa [div_eq_iff (by exact_mod_cast a.den_nz)] at ea

theorem qadd_eq (a b : Rat) : qadd a b = a + b := by
  have ha : ((a.den : Rat)) ≠ 0 := by exact_mod_cast a.den_nz
  have hb : ((b.den : Rat)) ≠ 0 := by exact_mod_cast b.den_nz
  rw [qadd, Rat.divInt_eq_div]
  push_cast
  rw [div_eq_iff (mul_ne_zero ha hb), ratNumCast_eq, ratNumCast_eq]
  ring

theorem qsub_eq (a b : Rat) : qsub a b = a - b := by
  have ha : ((a.den : Rat)) ≠ 0 := by exact_mod_cast a.den_nz
  have hb : ((b.den : Rat)) ≠ 0 := by exact_mod_cast b.den_nz
  rw [qsub, Rat.divInt_eq_div]
  push_cast
  rw [div_eq_iff (mul_ne_zero ha hb), ratNumCast_eq, ratNumCast_eq]
  ring

theorem qmul_eq (a b : Rat) : qmul a b = a * b := by
  have ha : ((a.den : Rat)) ≠ 0 := by exact_mod_cast a.den_nz
  have hb : ((b.den : Rat)) ≠ 0 := by exact_mod_cast b.den_nz
  rw [qmul, Rat.divInt_eq_div]
  push_cast
  rw [div_eq_iff (mul_ne_zero ha hb), ratNumCast_eq, ratNumCast_eq]
  ring

theorem qdiv_eq (a b : Rat) : qdiv a b = a / b := by
  have ha : ((a.den : Rat)) ≠ 0 := by exact_mod_cast a.den_nz
  rw [qdiv, Rat.divInt_eq_div]
  push_cast
  rcases eq_or_ne b 0 with hb | hb
  · subst hb; simp
  · have hbn : ((b.num : Rat)) ≠ 0 := by
      exact_mod_cast Rat.num_ne_zero.mpr hb
    rw [eq_div_iff hb, div_mul_eq_mul_div, div_eq_iff (mul_ne_zero ha hbn),
      ratNumCast_eq, ratNumCast_eq]
    ring

theorem qabs_eq (a : Rat) : qabs a = |a| := by
  rcases abs_cases a with ⟨h1, h2⟩ | ⟨h1, h2⟩ <;> rw [qabs, h1] <;> split <;>
    first
      | rfl
      | linarith

theorem qmax_eq (a b : Rat) : qmax a b = max a b := by
  rw [qmax, max_def]
  rcases lt_trichotomy a b with h | h | h
  · simp [h, le_of_lt h]
  · simp [h]
  · simp [not_lt_of_gt h, not_le_of_gt h]

theorem qmin_eq (a b : Rat) : qmin a b = min a b := by
  rw [qmin, min_def]
  rcases lt_trichotomy a b with h | h | h
  · simp [h, le_of_lt h]
  · simp [h]
  · simp [not_lt_of_gt h, not_le_of_gt h]

theorem qsum_eq (l : List Rat) : qsum l = l.sum := by
  have go : ∀ (l : List Rat) (a : Rat), l.foldl qadd a = a + l.sum := by
    intro l
    induction l with
    | nil => intro a; simp
    | cons x xs ih =>
      intro a
      simp only [List.foldl_cons, List.sum_cons, ih, qadd_eq]
      ring
  rw [qsum, go, zero_add]

/-- One OHLCV candle (`CandlestickData` in `forexService.ts`).  The field
`open` of the source is called `open_` because `open` is a Lean keyword. -/
structure Candle where
  timestamp : Nat
  open_ : Rat
  high : Rat
  low : Rat
  close : Rat
  volume : Rat
deriving DecidableEq

instance : Inhabited Candle := ⟨⟨0, 0, 0, 0, 0, 0⟩⟩

/-- One emitted indicator value (`TechnicalIndicator` in `forexService.ts`). -/
structure IndicatorPoint where
  timestamp : Nat
  value : Rat
deriving DecidableEq

instance : Inhabited IndicatorPoint := ⟨⟨0, 0⟩⟩

/-- Sum of the closes of a candle list (the source's
`reduce((acc, candle) => acc + candle.close, 0)`). -/
def sumCloses (l : List Candle) : Rat :=
  qsum (l.map Candle.close)

/-- Sum of the values of an indicator-point list. -/
def sumVals (l : List IndicatorPoint) : Rat :=
  qsum (l.map IndicatorPoint.value)

/-- `TechnicalAnalysis.calculateSMA`: for each index `i` from `period - 1` to
`data.length - 1`, the mean of the closes of `data.slice(i - period + 1, i + 1)`,
stamped with candle `i`'s timestamp. -/
def calculateSMA (data : List Candle) (period : Nat) : List IndicatorPoint :=
  (List.range' (period - 1) (data.length - (period - 1))).map fun i =>
    ⟨(data.getD i default).timestamp,
      qdiv (sumCloses ((data.drop (i + 1 - period)).take period)) (period : Rat)⟩

/-- The EMA recurrence of `calculateEMA`: starting from accumulator `e`,
each candle `c` contributes `(c.close - e) * m + e`. -/
def emaSteps (m : Rat) : Rat → List Candle → List IndicatorPoint
  | _, [] => []
  | e, c :: cs =>
    let e2 := qadd (qmul (qsub c.close e) m) e
    ⟨c.timestamp, e2⟩ :: emaSteps m e2 cs

/-- `TechnicalAnalysis.calculateEMA`.  The source returns `[]` on empty input;
on a non-empty input shorter than `period` it evaluates
`data[period - 1].timestamp` with `data[period - 1] === undefined` and throws a
`TypeError`, modelled here by `none`. -/
def calculateEMA (data : List Candle) (period : Nat) : Option (List IndicatorPoint) :=
  if data.length = 0 then some []
  else if data.length < period then none
  else
    let seed := qdiv (sumCloses (data.take period)) (period : Rat)
    some (⟨(data.getD (period - 1) default).timestamp, seed⟩ ::
      emaSteps (qdiv 2 (qadd (period : Rat) 1)) seed (data.drop period))

/-- The per-step gains of `calculateRSI`: the positive part of
`close[i] - close[i-1]` for each adjacent pair. -/
def rsiGains (data : List Candle) : List Rat :=
  List.zipWith (fun a b => if qsub b a > 0 then qsub b a else 0)
    (data.map Candle.close) ((data.map Candle.close).tail)

/-- The per-step losses of `calculateRSI`: `|close[i] - close[i-1]|` when the
change is negative, else `0`. -/
def rsiLosses (data : List Candle) : List Rat :=
  List.zipWith (fun a b => if qsub b a < 0 then qsub a b else 0)
    (data.map Candle.close) ((data.map Candle.close).tail)

/-- Average gain over the trailing window ending at gain index `i`
(`gains.slice(i - period + 1, i + 1).reduce(...) / period`). -/
def avgGainAt (data : List Candle) (period i : Nat) : Rat :=
  qdiv (qsum (((rsiGains data).drop (i + 1 - period)).take period)) (period : Rat)

/-- Average loss over the trailing window ending at loss index `i`. -/
def avgLossAt (data : List Candle) (period i : Nat) : Rat :=
  qdiv (qsum (((rsiLosses data).drop (i + 1 - period)).take period)) (period : Rat)

/-- `TechnicalAnalysis.calculateRSI`: for each gain index `i` from
`period - 1` to `gains.length - 1`, `RS = avgLoss == 0 ? 100 : avgGain/avgLoss`
and `RSI = 100 - 100/(1 + RS)`, stamped with candle `i + 1`'s timestamp. -/
def calculateRSI (data : List Candle) (period : Nat) : List IndicatorPoint :=
  (List.range' (period - 1) ((rsiGains data).length - (period - 1))).map fun i =>
    let avgGain := avgGainAt data period i
    let avgLoss := avgLossAt data period i
    let rs := if avgLoss = 0 then 100 else qdiv avgGain avgLoss
    ⟨(data.getD (i + 1) default).timestamp, qsub 100 (qdiv 100 (qadd 1 rs))⟩

/-- The three series returned by `calculateMACD`. -/
structure MACDResult where
  macd : List IndicatorPoint
  signal : List IndicatorPoint
  histogram : List IndicatorPoint
deriving DecidableEq

instance : Inhabited MACDResult := ⟨⟨[], [], []⟩⟩

/-- The signal-line recurrence of `calculateMACD` (a 9-period EMA over MACD
points, multiplier `2 / 10`). -/
def signalSteps (m : Rat) : Rat → List IndicatorPoint → List IndicatorPoint
  | _, [] => []
  | s, p :: ps =>
    let s2 := qadd (qmul (qsub p.value s) m) s
    ⟨p.timestamp, s2⟩ :: signalSteps m s2 ps

/-- One iteration of the MACD-line loop body: at loop index `i` the source
computes `ema12[i + 12 - 1]?.value - ema26[i]?.value` and pushes the point
(stamped `ema26[i].timestamp`) unless the subtraction produced `NaN` because
an operand was out of bounds. -/
def macdPointAt (e12 e26 : List IndicatorPoint) (i : Nat) : Option IndicatorPoint :=
  match e12.get? (i + 12 - 1), e26.get? i with
  | some a, some b => some ⟨b.timestamp, qsub a.value b.value⟩
  | _, _ => none

/-- The body of `calculateMACD` once both EMA series exist.  The MACD-line
loop runs `i` from `startIndex = max(0, 26 - 12) = 14` up to
`min(ema12.length, ema26.length)`; the signal line is the 9-period EMA of the
MACD line (once it has at least 9 points); the histogram pairs the two lines
right-aligned. -/
def macdFrom (e12 e26 : List IndicatorPoint) : MACDResult :=
  let n := min e12.length e26.length
  let macdLine := (List.range' 14 (n - 14)).filterMap (macdPointAt e12 e26)
  let signalLine :=
    if 9 ≤ macdLine.length then
      let seed := qdiv (sumVals (macdLine.take 9)) 9
      ⟨(macdLine.getD 8 default).timestamp, seed⟩ ::
        signalSteps (qdiv 2 10) seed (macdLine.drop 9)
    else []
  let off := macdLine.length - signalLine.length
  let histogram := (List.range (min macdLine.length signalLine.length)).map fun i =>
    ⟨(macdLine.getD (i + off) default).timestamp,
      qsub (macdLine.getD (i + off) default).value (signalLine.getD i default).value⟩
  ⟨macdLine, signalLine, histogram⟩

/-- `TechnicalAnalysis.calculateMACD`.  `none` models the `TypeError` thrown
by the inner `calculateEMA` calls on a non-empty input shorter than 26. -/
def calculateMACD (data : List Candle) : Option MACDResult := do
  let e12 ← calculateEMA data 12
  let e26 ← calculateEMA data 26
  pure (macdFrom e12 e26)

/-- The three bands returned by `calculateBollingerBands`. -/
structure BollingerResult where
  upper : List IndicatorPoint
  middle : List IndicatorPoint
  lower : List IndicatorPoint
deriving DecidableEq

/-- `TechnicalAnalysis.calculateBollingerBands`.  `Math.sqrt` is kept as the
uninterpreted parameter `sqrtFn` (the square `Math.pow(price - mean, 2)` is
`qmul` of the difference with itself); every claim proved about this function
is stated for all values of `sqrtFn`. -/
def calculateBollingerBands (sqrtFn : Rat → Rat) (data : List Candle)
    (period : Nat) (stdDev : Rat) : BollingerResult :=
  let sma := calculateSMA data period
  let upper := (List.range sma.length).map fun i =>
    let mean := (sma.getD i default).value
    let prices := ((data.drop i).take period).map Candle.close
    let variance := qdiv (qsum (prices.map fun p => qmul (qsub p mean) (qsub p mean)))
      (period : Rat)
    (⟨(sma.getD i default).timestamp, qadd mean (qmul stdDev (sqrtFn variance))⟩ :
      IndicatorPoint)
  let lower := (List.range sma.length).map fun i =>
    let mean := (sma.getD i default).value
    let prices := ((data.drop i).take period).map Candle.close
    let variance := qdiv (qsum (prices.map fun p => qmul (qsub p mean) (qsub p mean)))
      (period : Rat)
    (⟨(sma.getD i default).timestamp, qsub mean (qmul stdDev (sqrtFn variance))⟩ :
      IndicatorPoint)
  ⟨upper, sma, lower⟩

/-- The `stochastic` member of `AnalysisResult` (always returned empty by
`analyzeAll`). -/
structure StochasticResult where
  k : List IndicatorPoint
  d : List IndicatorPoint
deriving DecidableEq

/-- `AnalysisResult` from `technicalAnalysis.ts`. -/
structure AnalysisResult where
  sma20 : List IndicatorPoint
  sma50 : List IndicatorPoint
  ema12 : List IndicatorPoint
  ema26 : List IndicatorPoint
  rsi : List IndicatorPoint
  macd : MACDResult
  bollingerBands : BollingerResult
  stochastic : StochasticResult
deriving DecidableEq

/-- `TechnicalAnalysis.analyzeAll`; `none` models a `TypeError` escaping from
one of the EMA-based computations. -/
def analyzeAll (sqrtFn : Rat → Rat) (data : List Candle) : Option AnalysisResult := do
  let e12 ← calculateEMA data 12
  let e26 ← calculateEMA data 26
  let m ← calculateMACD data
  pure
    { sma20 := calculateSMA data 20
      sma50 := calculateSMA data 50
      ema12 := e12
      ema26 := e26
      rsi := calculateRSI data 14
      macd := m
      bollingerBands := calculateBollingerBands sqrtFn data 20 2
      stochastic := ⟨[], []⟩ }

/-- `AdvancedTechnicalAnalysis`: True Range of an adjacent candle pair
(`max(high - low, |high - prevClose|, |low - prevClose|)`). -/
def trueRange (prev c : Candle) : Rat :=
  qmax (qsub c.high c.low)
    (qmax (qabs (qsub c.high prev.close)) (qabs (qsub c.low prev.close)))

/-- The list of True Ranges over adjacent pairs of the input. -/
def trueRanges (data : List Candle) : List Rat :=
  List.zipWith trueRange data data.tail

/-- `+DM` of an adjacent candle pair. -/
def plusDM (prev c : Candle) : Rat :=
  if qsub c.high prev.high > qsub prev.low c.low then qmax (qsub c.high prev.high) 0
  else 0

/-- `-DM` of an adjacent candle pair. -/
def minusDM (prev c : Candle) : Rat :=
  if qsub prev.low c.low > qsub c.high prev.high then qmax (qsub prev.low c.low) 0
  else 0

/-- The loop body of `calculateADX`, folded over the eligible indices with the
result list built so far as accumulator (the source reads back
`result.slice(...)` while pushing).  Division by a zero `avgTR`, which in
JavaScript would produce `NaN`/`Infinity` values, is the rational convention
`x / 0 = 0` here; no claim examines ADX values. -/
def adxStep (data : List Candle) (period : Nat) (acc : List IndicatorPoint)
    (i : Nat) : List IndicatorPoint :=
  let trs := trueRanges data
  let pdms := List.zipWith plusDM data data.tail
  let mdms := List.zipWith minusDM data data.tail
  let avgTR := qdiv (qsum ((trs.drop (i + 1 - period)).take period)) (period : Rat)
  let avgPlusDM := qdiv (qsum ((pdms.drop (i + 1 - period)).take period)) (period : Rat)
  let avgMinusDM := qdiv (qsum ((mdms.drop (i + 1 - period)).take period)) (period : Rat)
  let plusDI := qmul (qdiv avgPlusDM avgTR) 100
  let minusDI := qmul (qdiv avgMinusDM avgTR) 100
  let dx := qmul (qdiv (qabs (qsub plusDI minusDI)) (qadd plusDI minusDI)) 100
  if period * 2 - 2 ≤ i then
    let startIdx := acc.length - (period - 1)
    let adxValues := (acc.drop startIdx).map IndicatorPoint.value ++ [dx]
    acc ++ [⟨(data.getD (i + 1) default).timestamp,
      qdiv (qsum adxValues) (adxValues.length : Rat)⟩]
  else
    acc ++ [⟨(data.getD (i + 1) default).timestamp, dx⟩]

/-- `AdvancedTechnicalAnalysis.calculateADX`. -/
def calculateADX (data : List Candle) (period : Nat) : List IndicatorPoint :=
  (List.range' (period - 1) ((trueRanges data).length - (period - 1))).foldl
    (adxStep data period) []

/-- `AdvancedTechnicalAnalysis.calculateATR`: the simple moving average of the
last `period` True Ranges, emitted from candle index `period` on. -/
def calculateATR (data : List Candle) (period : Nat) : List IndicatorPoint :=
  (List.range' period (data.length - period)).map fun i =>
    ⟨(data.getD i default).timestamp,
      qdiv (qsum (((trueRanges data).drop (i - period)).take period)) (period : Rat)⟩

/-- The pivot-point record of `AdvancedAnalysisResult`. -/
structure PivotPoints where
  pivot : Rat
  resistance1 : Rat
  resistance2 : Rat
  support1 : Rat
  support2 : Rat
deriving DecidableEq

/-- `marketRegime` values. -/
inductive MarketRegime | trending | ranging
deriving DecidableEq

/-- `trendStrength` values. -/
inductive TrendStrength | weak | moderate | strong
deriving DecidableEq

/-- `volatility` values (also used for the volume profile, whose values are
the same three strings in the source). -/
inductive Volatility | low | medium | high
deriving DecidableEq

/-- `AdvancedAnalysisResult` from `advancedTechnicalAnalysis.ts`.  The
`sessionFilter` member is a pure function of the wall clock in the source
(`isSessionActive`), so it enters the embedding as data. -/
structure AdvancedAnalysisResult where
  adx : List IndicatorPoint
  atr : List IndicatorPoint
  pivotPoints : PivotPoints
  marketRegime : MarketRegime
  trendStrength : TrendStrength
  volatility : Volatility
  sessionFilter : Bool
deriving DecidableEq

/-- The seven signal levels of `EnhancedSignalType`. -/
inductive EnhancedSignalType
  | STRONG_BUY | BUY | WEAK_BUY | HOLD | WEAK_SELL | SELL | STRONG_SELL
deriving DecidableEq

/-- Direction of a fair value gap. -/
inductive FVGType | bullish | bearish
deriving DecidableEq

/-- `FairValueGap` from `enhancedTradingStrategy.ts`. -/
structure FairValueGap where
  type : FVGType
  high : Rat
  low : Rat
  index : Nat
  filled : Bool
  strength : Rat
deriving DecidableEq

instance : Inhabited FairValueGap := ⟨⟨.bullish, 0, 0, 0, false, 0⟩⟩

/-- Direction of an order block. -/
inductive OBType | demand | supply
deriving DecidableEq

/-- `OrderBlock` from `enhancedTradingStrategy.ts`. -/
structure OrderBlock where
  type : OBType
  high : Rat
  low : Rat
  volume : Rat
  index : Nat
  tested : Bool
  strength : Rat
deriving DecidableEq

/-- Direction of a liquidity zone. -/
inductive LZType | buy_liquidity | sell_liquidity
deriving DecidableEq

/-- `LiquidityZone` from `enhancedTradingStrategy.ts`. -/
structure LiquidityZone where
  type : LZType
  price : Rat
  strength : Rat
  index : Nat
  swept : Bool
deriving DecidableEq

/-- `EnhancedStrategyConfig`. -/
structure EnhancedStrategyConfig where
  riskPercentage : Rat
  atrMultiplierSL : Rat
  atrMultiplierTP : Rat
  minConfidence : Rat
  minADX : Rat
  maxSpread : Rat
  useTrailingStop : Bool
  fvgMinSize : Rat
  orderBlockMinVolume : Rat
  liquidityThreshold : Rat
deriving DecidableEq

/-- The constructor-default `EnhancedStrategyConfig` of the source
(`1.2` is `q 12 10`, `0.0002` is `q 2 10000`, `0.6` is `q 6 10`). -/
def defaultConfig : EnhancedStrategyConfig :=
  { riskPercentage := 1
    atrMultiplierSL := q 12 10
    atrMultiplierTP := 2
    minConfidence := 65
    minADX := 10
    maxSpread := 3
    useTrailingStop := true
    fvgMinSize := q 2 10000
    orderBlockMinVolume := q 12 10
    liquidityThreshold := q 6 10 }

/-- The detection pass of `identifyFairValueGaps`: the loop runs `i` from `2`
to `data.length - 2` (so the triple `(0, 1, 2)` is never examined); at each
`i` a bullish gap is pushed when `data[i-1].low > data[i+1].high` with gap
size at least `fvgMinSize`, then a bearish gap symmetrically.  Gaps are
created with `filled := false`. -/
def fvgRaw (cfg : EnhancedStrategyConfig) (data : List Candle) : List FairValueGap :=
  (List.range' 2 (data.length - 1 - 2)).flatMap fun i =>
    let prev := data.getD (i - 1) default
    let next := data.getD (i + 1) default
    (if prev.low > next.high ∧ qsub prev.low next.high ≥ cfg.fvgMinSize then
      [⟨.bullish, prev.low, next.high, i, false,
        qmul (qdiv (qsub prev.low next.high) prev.close) 10000⟩]
    else []) ++
    (if prev.high < next.low ∧ qsub next.low prev.high ≥ cfg.fvgMinSize then
      [⟨.bearish, next.low, prev.high, i, false,
        qmul (qdiv (qsub next.low prev.high) prev.close) 10000⟩]
    else [])

/-- The fill pass of `identifyFairValueGaps`: a gap is filled when some later
candle `j > gap.index` has `low ≤ gap.low` (bullish) or `high ≥ gap.high`
(bearish). -/
def fvgFilled (data : List Candle) (g : FairValueGap) : Bool :=
  (List.range' (g.index + 1) (data.length - (g.index + 1))).any fun j =>
    match g.type with
    | .bullish => decide ((data.getD j default).low ≤ g.low)
    | .bearish => decide ((data.getD j default).high ≥ g.high)

/-- `identifyFairValueGaps` before the final `slice(-8)` cap. -/
def fvgAll (cfg : EnhancedStrategyConfig) (data : List Candle) : List FairValueGap :=
  (fvgRaw cfg data).map fun g => { g with filled := fvgFilled data g }

/-- `EnhancedTradingStrategy.identifyFairValueGaps` (`gaps.slice(-8)`). -/
def identifyFairValueGaps (cfg : EnhancedStrategyConfig) (data : List Candle) :
    List FairValueGap :=
  let gs := fvgAll cfg data
  gs.drop (gs.length - 8)

/-- `candle.volume || 1`: JavaScript replaces a falsy (zero) volume by `1`. -/
def volOr1 (c : Candle) : Rat :=
  if c.volume = 0 then 1 else c.volume

/-- `data.slice(max(0, i - 5), i)` average volume, always divided by 5 as in
the source (`.reduce(...) / 5`). -/
def avgVolume5 (data : List Candle) (i : Nat) : Rat :=
  qdiv (qsum (((data.drop (i - 5)).take (i - (i - 5))).map volOr1)) 5

/-- The `tested` scan for a demand block at index `i`: some later candle's low
re-enters `[candle.low, candle.high]`. -/
def demandTested (data : List Candle) (i : Nat) : Bool :=
  let c := data.getD i default
  (List.range' (i + 1) (data.length - (i + 1))).any fun j =>
    decide ((data.getD j default).low ≤ c.high ∧ (data.getD j default).low ≥ c.low)

/-- The `tested` scan for a supply block at index `i`: some later candle's
high re-enters `[candle.low, candle.high]`. -/
def supplyTested (data : List Candle) (i : Nat) : Bool :=
  let c := data.getD i default
  (List.range' (i + 1) (data.length - (i + 1))).any fun j =>
    decide ((data.getD j default).high ≥ c.low ∧ (data.getD j default).high ≤ c.high)

/-- `identifyOrderBlocks` before the final `slice(-6)` cap: the loop runs `i`
from `3` to `data.length - 4`; a candle qualifies when its (defaulted) volume
exceeds `avgVolume * orderBlockMinVolume` and its body exceeds half its range
(`0.5` is `q 5 10`), giving a demand block for an up candle and a supply
block for a down candle. -/
def obAll (cfg : EnhancedStrategyConfig) (data : List Candle) : List OrderBlock :=
  (List.range' 3 (data.length - 3 - 3)).flatMap fun i =>
    let c := data.getD i default
    let volume := volOr1 c
    let avgVolume := avgVolume5 data i
    if volume > qmul avgVolume cfg.orderBlockMinVolume then
      let bodySize := qabs (qsub c.close c.open_)
      let candleRange := qsub c.high c.low
      (if c.close > c.open_ ∧ bodySize > qmul candleRange (q 5 10) then
        [⟨.demand, c.high, c.low, volume, i, demandTested data i,
          qmul (qdiv volume avgVolume) (qdiv bodySize candleRange)⟩]
      else []) ++
      (if c.close < c.open_ ∧ bodySize > qmul candleRange (q 5 10) then
        [⟨.supply, c.high, c.low, volume, i, supplyTested data i,
          qmul (qdiv volume avgVolume) (qdiv bodySize candleRange)⟩]
      else [])
    else []

/-- `EnhancedTradingStrategy.identifyOrderBlocks` (`blocks.slice(-6)`). -/
def identifyOrderBlocks (cfg : EnhancedStrategyConfig) (data : List Candle) :
    List OrderBlock :=
  let bs := obAll cfg data
  bs.drop (bs.length - 6)

/-- `calculateLiquidityStrength`: relative volume plus `0.3` (`q 3 10`) per
nearby candle whose extreme lies within a `price * 0.0002` tolerance of the
target, over a window of ten candles on each side excluding `index` itself. -/
def calculateLiquidityStrength (data : List Candle) (index : Nat)
    (useHigh : Bool) : Rat :=
  let c := data.getD index default
  let volume := volOr1 c
  let avgVolume := avgVolume5 data index
  let targetPrice := if useHigh then c.high else c.low
  let lo := index - 10
  let hi := min data.length (index + 10)
  let touchCount := ((List.range' lo (hi - lo)).filter fun i =>
    decide (i ≠ index ∧
      (if useHigh then qabs (qsub (data.getD i default).high targetPrice)
        else qabs (qsub (data.getD i default).low targetPrice)) ≤
        qmul targetPrice (q 2 10000))).length
  qadd (qdiv volume avgVolume) (qmul (touchCount : Rat) (q 3 10))

/-- The `swept` scan for a swing high at `i`: some later candle's high
strictly exceeds it. -/
def sweptHigh (data : List Candle) (i : Nat) : Bool :=
  (List.range' (i + 1) (data.length - (i + 1))).any fun j =>
    decide ((data.getD j default).high > (data.getD i default).high)

/-- The `swept` scan for a swing low at `i`: some later candle's low is
strictly below it. -/
def sweptLow (data : List Candle) (i : Nat) : Bool :=
  (List.range' (i + 1) (data.length - (i + 1))).any fun j =>
    decide ((data.getD j default).low < (data.getD i default).low)

/-- `identifyLiquidityZones` before the final `slice(-8)` cap: the loop runs
`i` from `3` to `data.length - 4`; a swing high (all three neighbours on each
side strictly lower) yields a `sell_liquidity` zone, a swing low a
`buy_liquidity` zone. -/
def lzAll (data : List Candle) : List LiquidityZone :=
  (List.range' 3 (data.length - 3 - 3)).flatMap fun i =>
    let c := data.getD i default
    let leftCandles := (data.drop (i - 3)).take 3
    let rightCandles := (data.drop (i + 1)).take 3
    (if leftCandles.all (fun x => decide (x.high < c.high)) &&
        rightCandles.all (fun x => decide (x.high < c.high)) then
      [⟨.sell_liquidity, c.high, calculateLiquidityStrength data i true, i,
        sweptHigh data i⟩]
    else []) ++
    (if leftCandles.all (fun x => decide (x.low > c.low)) &&
        rightCandles.all (fun x => decide (x.low > c.low)) then
      [⟨.buy_liquidity, c.low, calculateLiquidityStrength data i false, i,
        sweptLow data i⟩]
    else [])

/-- `EnhancedTradingStrategy.identifyLiquidityZones` (`zones.slice(-8)`). -/
def identifyLiquidityZones (data : List Candle) : List LiquidityZone :=
  let zs := lzAll data
  zs.drop (zs.length - 8)

/-- `analyzeVolumeProfile`: the latest volume against the mean of the last ten
(`1.3` is `q 13 10`, `0.7` is `q 7 10`; in JavaScript an empty input averages
to `NaN`, every comparison with which is false, so the result is `low` — the
empty case is spelled out here because rational division by zero would not
reproduce that). -/
def analyzeVolumeProfile (data : List Candle) : Volatility :=
  let recentData := data.drop (data.length - 10)
  if recentData.length = 0 then .low
  else
    let currentVolume := volOr1 (recentData.getD (recentData.length - 1) default)
    let avgVolume := qdiv (qsum (recentData.map volOr1)) (recentData.length : Rat)
    if currentVolume > qmul avgVolume (q 13 10) then .high
    else if currentVolume > qmul avgVolume (q 7 10) then .medium
    else .low

/-- Market-structure bias values. -/
inductive Micro | bullish | bearish | neutral
deriving DecidableEq

/-- `countHigherHighs`. -/
def countHigherHighs (data : List Candle) : Nat :=
  (List.zipWith (fun a b => decide (b.high > a.high)) data data.tail).count true

/-- `countLowerLows`. -/
def countLowerLows (data : List Candle) : Nat :=
  (List.zipWith (fun a b => decide (b.low < a.low)) data data.tail).count true

/-- `analyzeMarketMicrostructure`: price action over the last five candles
plus unfilled/untested structure on the current-price side, majority vote. -/
def analyzeMarketMicrostructure (data : List Candle) (fvgs : List FairValueGap)
    (orderBlocks : List OrderBlock) : Micro :=
  let recentData := data.drop (data.length - 5)
  let currentPrice := (data.getD (data.length - 1) default).close
  let higherHighs := countHigherHighs recentData
  let lowerLows := countLowerLows recentData
  let b0 : Nat := if higherHighs > lowerLows then 1 else 0
  let s0 : Nat := if lowerLows > higherHighs then 1 else 0
  let bullishFVGs := (fvgs.filter fun g =>
    decide (g.type = .bullish ∧ g.filled = false ∧ currentPrice > g.low)).length
  let bearishFVGs := (fvgs.filter fun g =>
    decide (g.type = .bearish ∧ g.filled = false ∧ currentPrice < g.high)).length
  let demandBlocks := (orderBlocks.filter fun b =>
    decide (b.type = .demand ∧ b.tested = false ∧ currentPrice > b.low)).length
  let supplyBlocks := (orderBlocks.filter fun b =>
    decide (b.type = .supply ∧ b.tested = false ∧ currentPrice < b.high)).length
  let bullishSignals := b0 + bullishFVGs + demandBlocks
  let bearishSignals := s0 + bearishFVGs + supplyBlocks
  if bullishSignals > bearishSignals then .bullish
  else if bearishSignals > bullishSignals then .bearish
  else .neutral

/-- `array[array.length - 1]?.value`: the latest value of a series, absent for
the empty series. -/
def lastVal (l : List IndicatorPoint) : Option Rat :=
  (l.get? (l.length - 1)).map IndicatorPoint.value

/-- `array[array.length - 2]?.value`: the next-to-latest value, absent when
the series has fewer than two points. -/
def prevVal (l : List IndicatorPoint) : Option Rat :=
  if 2 ≤ l.length then (l.get? (l.length - 2)).map IndicatorPoint.value else none

/-- The mutable `signals` accumulator of both confluence engines (the basic
engine ignores the `confluenceScore` component). -/
structure SigAcc where
  bullish : Rat
  bearish : Rat
  reasons : List String
  confluenceScore : Rat
deriving DecidableEq

/-- Add a bullish contribution of weight `w` (tally and confluence score). -/
def addBull (w : Rat) (reason : String) (s : SigAcc) : SigAcc :=
  { s with
      bullish := qadd s.bullish w
      confluenceScore := qadd s.confluenceScore w
      reasons := s.reasons ++ [reason] }

/-- Add a bearish contribution of weight `w` (tally and confluence score). -/
def addBear (w : Rat) (reason : String) (s : SigAcc) : SigAcc :=
  { s with
      bearish := qadd s.bearish w
      confluenceScore := qadd s.confluenceScore w
      reasons := s.reasons ++ [reason] }

/-- The RSI rule of `analyzeAdvancedConfluence`.  The JavaScript guard
`if (rsi)` skips the rule when the latest RSI is absent or exactly `0`.
(Reason strings throughout drop the interpolated numeric suffixes of the
source; no claim depends on them.) -/
def rsiRule (r : Option Rat) (s : SigAcc) : SigAcc :=
  match r with
  | none => s
  | some v =>
    if v = 0 then s
    else if v < 30 then addBull 4 "RSI oversold" s
    else if v > 70 then addBear 4 "RSI overbought" s
    else if v < 40 then addBull 2 "RSI bullish" s
    else if v > 60 then addBear 2 "RSI bearish" s
    else s

/-- The MACD rule of `analyzeAdvancedConfluence`: guarded by
`if (macdHist && prevMACDHist)`, so it is skipped when either value is absent
or exactly `0`. -/
def macdRule (h p : Option Rat) (s : SigAcc) : SigAcc :=
  match h, p with
  | some hv, some pv =>
    if hv = 0 ∨ pv = 0 then s
    else if pv ≤ 0 ∧ hv > 0 then addBull 5 "MACD bullish crossover" s
    else if pv ≥ 0 ∧ hv < 0 then addBear 5 "MACD bearish crossover" s
    else if hv > 0 then addBull 2 "MACD above zero" s
    else if hv < 0 then addBear 2 "MACD below zero" s
    else s
  | _, _ => s

/-- The EMA-trend rule of `analyzeAdvancedConfluence`. -/
def emaRule (a b : Option Rat) (currentPrice : Rat) (s : SigAcc) : SigAcc :=
  match a, b with
  | some av, some bv =>
    if av = 0 ∨ bv = 0 then s
    else if av > bv ∧ currentPrice > av then addBull 3 "Bullish EMA trend" s
    else if av < bv ∧ currentPrice < av then addBear 3 "Bearish EMA trend" s
    else s
  | _, _ => s

/-- The fair-value-gap proximity rule of `analyzeAdvancedConfluence`
(`0.998` is `q 998 1000`, `1.002` is `q 1002 1000`). -/
def fvgRule (fvgs : List FairValueGap) (currentPrice : Rat) (s : SigAcc) : SigAcc :=
  let nearBullishFVG := fvgs.find? fun g =>
    decide (g.type = .bullish ∧ g.filled = false ∧
      currentPrice ≥ qmul g.low (q 998 1000) ∧ currentPrice ≤ qmul g.high (q 1002 1000))
  let nearBearishFVG := fvgs.find? fun g =>
    decide (g.type = .bearish ∧ g.filled = false ∧
      currentPrice ≤ qmul g.high (q 1002 1000) ∧ currentPrice ≥ qmul g.low (q 998 1000))
  let s1 := match nearBullishFVG with
    | some _ => addBull 3 "Near bullish FVG" s
    | none => s
  match nearBearishFVG with
  | some _ => addBear 3 "Near bearish FVG" s1
  | none => s1

/-- The order-block proximity rule of `analyzeAdvancedConfluence`. -/
def obRule (orderBlocks : List OrderBlock) (currentPrice : Rat) (s : SigAcc) : SigAcc :=
  let nearDemandBlock := orderBlocks.find? fun b =>
    decide (b.type = .demand ∧ b.tested = false ∧
      currentPrice ≥ qmul b.low (q 998 1000) ∧ currentPrice ≤ qmul b.high (q 1002 1000))
  let nearSupplyBlock := orderBlocks.find? fun b =>
    decide (b.type = .supply ∧ b.tested = false ∧
      currentPrice ≥ qmul b.low (q 998 1000) ∧ currentPrice ≤ qmul b.high (q 1002 1000))
  let s1 := match nearDemandBlock with
    | some _ => addBull 3 "Near demand block" s
    | none => s
  match nearSupplyBlock with
  | some _ => addBear 3 "Near supply block" s1
  | none => s1

/-- The market-microstructure rule of `analyzeAdvancedConfluence`. -/
def microRule (m : Micro) (s : SigAcc) : SigAcc :=
  match m with
  | .bullish => addBull 2 "Bullish market structure" s
  | .bearish => addBear 2 "Bearish market structure" s
  | .neutral => s

/-- The volume-confirmation rule of `analyzeAdvancedConfluence` (confluence
score only). -/
def volumeRule (vp : Volatility) (s : SigAcc) : SigAcc :=
  match vp with
  | .high =>
    { s with
        confluenceScore := qadd s.confluenceScore 2
        reasons := s.reasons ++ ["High volume confirmation"] }
  | _ => s

/-- The session rule of `analyzeAdvancedConfluence`: a one-point penalty
outside the major sessions, a one-point bonus inside them. -/
def sessionRule (active : Bool) (s : SigAcc) : SigAcc :=
  if active = false then
    { s with
        confluenceScore := qsub s.confluenceScore 1
        reasons := s.reasons ++ ["Outside major sessions"] }
  else
    { s with
        confluenceScore := qadd s.confluenceScore 1
        reasons := s.reasons ++ ["Active trading session"] }

/-- The record returned by `analyzeAdvancedConfluence`. -/
structure ConfluenceOut where
  bullish : Rat
  bearish : Rat
  confidence : Rat
  reasons : List String
  confluenceScore : Rat
deriving DecidableEq

/-- `EnhancedTradingStrategy.analyzeAdvancedConfluence`: the ordered rule
table followed by the confidence computation
`confidence = totalSignals > 0 ? max/total*100 : 50`, boosted by
`min(confluenceScore * 2, 25)`, capped at `95`, and raised to at least `60`
when `confluenceScore >= 5`.  (The `data` and `liquidityZones` parameters of
the source method are never read by its body.) -/
def analyzeAdvancedConfluence (data : List Candle) (analysis : AnalysisResult)
    (advanced : AdvancedAnalysisResult) (currentPrice : Rat)
    (fvgs : List FairValueGap) (orderBlocks : List OrderBlock)
    (liquidityZones : List LiquidityZone) (volumeProfile : Volatility)
    (microstructure : Micro) : ConfluenceOut :=
  let s1 := rsiRule (lastVal analysis.rsi) ⟨0, 0, [], 0⟩
  let s2 := macdRule (lastVal analysis.macd.histogram)
    (prevVal analysis.macd.histogram) s1
  let s3 := emaRule (lastVal analysis.ema12) (lastVal analysis.ema26) currentPrice s2
  let s4 := fvgRule fvgs currentPrice s3
  let s5 := obRule orderBlocks currentPrice s4
  let s6 := microRule microstructure s5
  let s7 := volumeRule volumeProfile s6
  let s8 := sessionRule advanced.sessionFilter s7
  let totalSignals := qadd s8.bullish s8.bearish
  let conf0 := if totalSignals > 0 then
      qmul (qdiv (qmax s8.bullish s8.bearish) totalSignals) 100
    else 50
  let confluenceBoost := qmin (qmul s8.confluenceScore 2) 25
  let conf1 := qmin (qadd conf0 confluenceBoost) 95
  let conf2 := if s8.confluenceScore ≥ 5 then qmax conf1 60 else conf1
  ⟨s8.bullish, s8.bearish, conf2, s8.reasons, s8.confluenceScore⟩

/-- `EnhancedTradingStrategy.determineSmartMoneySignal`.  The
`advancedAnalysis` and `microstructure` parameters of the source are never
read by its body. -/
def determineSmartMoneySignal (cfg : EnhancedStrategyConfig) (c : ConfluenceOut)
    (advanced : AdvancedAnalysisResult) (microstructure : Micro) :
    EnhancedSignalType :=
  if c.confidence < cfg.minConfidence then .HOLD
  else if c.confluenceScore < 4 then .HOLD
  else
    let signalStrength := qabs (qsub c.bullish c.bearish)
    let isVeryStrongSignal : Bool :=
      decide (c.confluenceScore ≥ 12 ∧ signalStrength ≥ 6 ∧ c.confidence ≥ 85)
    let isStrongSignal : Bool :=
      decide (c.confluenceScore ≥ 8 ∧ signalStrength ≥ 4 ∧ c.confidence ≥ 75)
    if c.bullish > c.bearish then
      if isVeryStrongSignal then .STRONG_BUY
      else if isStrongSignal then .BUY
      else .WEAK_BUY
    else if c.bearish > c.bullish then
      if isVeryStrongSignal then .STRONG_SELL
      else if isStrongSignal then .SELL
      else .WEAK_SELL
    else .HOLD

/-- The moving-average rule of `TradingStrategy.analyzeIndicators`. -/
def smaBasicRule (a b : Option Rat) (currentPrice : Rat) (s : SigAcc) : SigAcc :=
  match a, b with
  | some av, some bv =>
    if av = 0 ∨ bv = 0 then s
    else if av > bv ∧ currentPrice > av then
      addBull 2 "Price above rising SMA20 over SMA50" s
    else if av < bv ∧ currentPrice < av then
      addBear 2 "Price below falling SMA20 under SMA50" s
    else s
  | _, _ => s

/-- The EMA-crossover rule of `TradingStrategy.analyzeIndicators` (note the
unconditional `else` branch: equality counts as bearish). -/
def emaBasicRule (a b : Option Rat) (s : SigAcc) : SigAcc :=
  match a, b with
  | some av, some bv =>
    if av = 0 ∨ bv = 0 then s
    else if av > bv then addBull 1 "EMA12 above EMA26" s
    else addBear 1 "EMA12 below EMA26" s
  | _, _ => s

/-- The RSI rule of `TradingStrategy.analyzeIndicators` (thresholds 30, 70,
45, 55).  `if (rsi)` skips an absent or exactly-zero latest RSI. -/
def rsiBasicRule (r : Option Rat) (s : SigAcc) : SigAcc :=
  match r with
  | none => s
  | some v =>
    if v = 0 then s
    else if v < 30 then addBull 2 "RSI oversold" s
    else if v > 70 then addBear 2 "RSI overbought" s
    else if v < 45 then addBull 1 "RSI showing bullish momentum" s
    else if v > 55 then addBear 1 "RSI showing bearish momentum" s
    else s

/-- The MACD rule of `TradingStrategy.analyzeIndicators`: guarded by
`if (macd && macdSignal && macdHist)`. -/
def macdBasicRule (m sig h : Option Rat) (s : SigAcc) : SigAcc :=
  match m, sig, h with
  | some mv, some sv, some hv =>
    if mv = 0 ∨ sv = 0 ∨ hv = 0 then s
    else if mv > sv ∧ hv > 0 then addBull 1 "MACD bullish crossover" s
    else if mv < sv ∧ hv < 0 then addBear 1 "MACD bearish crossover" s
    else s
  | _, _, _ => s

/-- The Bollinger-band rule of `TradingStrategy.analyzeIndicators`. -/
def bbBasicRule (u l mid : Option Rat) (currentPrice : Rat) (s : SigAcc) : SigAcc :=
  match u, l, mid with
  | some uv, some lv, some mv =>
    if uv = 0 ∨ lv = 0 ∨ mv = 0 then s
    else if currentPrice ≤ lv then addBull 2 "Price at lower Bollinger Band" s
    else if currentPrice ≥ uv then addBear 2 "Price at upper Bollinger Band" s
    else if currentPrice > mv then addBull 1 "Price above BB middle line" s
    else addBear 1 "Price below BB middle line" s
  | _, _, _ => s

/-- `TradingStrategy.analyzeIndicators`: the basic engine's ordered rule
table over the latest values of each series. -/
def analyzeIndicators (analysis : AnalysisResult) (currentPrice : Rat) : SigAcc :=
  let s1 := smaBasicRule (lastVal analysis.sma20) (lastVal analysis.sma50)
    currentPrice ⟨0, 0, [], 0⟩
  let s2 := emaBasicRule (lastVal analysis.ema12) (lastVal analysis.ema26) s1
  let s3 := rsiBasicRule (lastVal analysis.rsi) s2
  let s4 := macdBasicRule (lastVal analysis.macd.macd)
    (lastVal analysis.macd.signal) (lastVal analysis.macd.histogram) s3
  bbBasicRule (lastVal analysis.bollingerBands.upper)
    (lastVal analysis.bollingerBands.lower)
    (lastVal analysis.bollingerBands.middle) currentPrice s4

/-- `TradingStrategy.calculateConfidence`: `0` when no rule fired, otherwise
`max(bullish, bearish) / total * 100` plus `min(5 * reasons, 20)`, capped at
`100`. -/
def calculateConfidence (s : SigAcc) : Rat :=
  let totalSignals := qadd s.bullish s.bearish
  if totalSignals = 0 then 0
  else
    let confidence := qmul (qdiv (qmax s.bullish s.bearish) totalSignals) 100
    let confidenceBoost := qmin (qmul (s.reasons.length : Rat) 5) 20
    qmin (qadd confidence confidenceBoost) 100

/-- A single constant candle, used as the minimal non-empty input. -/
def oneCandle : List Candle := [⟨0, 1, 1, 1, 1, 1⟩]

/-- The flat-market candle of the specification scenario:
open = high = low = close = 1.1000, volume = 1000. -/
def flatCandle : Candle := ⟨0, q 11 10, q 11 10, q 11 10, q 11 10, 1000⟩

/-- Thirty identical flat candles. -/
def flat30 : List Candle := List.replicate 30 flatCandle

/-- The 3-candle input of the single-bullish-FVG scenario:
candle 0 has low 1.1050, candle 2 has high 1.1020. -/
def fvgScenario3 : List Candle :=
  [⟨0, q 11055 10000, q 11060 10000, q 11050 10000, q 11052 10000, 1000⟩,
   ⟨1, q 11040 10000, q 11048 10000, q 11030 10000, q 11032 10000, 1000⟩,
   ⟨2, q 11015 10000, q 11020 10000, q 11010 10000, q 11012 10000, 1000⟩]

/-- The same gap pattern placed one candle later (candles 1 to 3 of a
4-candle input), so that it falls inside the scanned index range. -/
def fvgScenario4 : List Candle :=
  [⟨0, q 11050 10000, q 11061 10000, q 11045 10000, q 11052 10000, 1000⟩,
   ⟨1, q 11055 10000, q 11060 10000, q 11050 10000, q 11052 10000, 1000⟩,
   ⟨2, q 11040 10000, q 11048 10000, q 11030 10000, q 11032 10000, 1000⟩,
   ⟨3, q 11015 10000, q 11020 10000, q 11010 10000, q 11012 10000, 1000⟩]

/-- One further candle appended to `fvgScenario4` for the recomputation
claim. -/
def fvgExtension : List Candle :=
  [⟨4, q 11030 10000, q 11040 10000, q 11025 10000, q 11035 10000, 1000⟩]

/-- Forty candles with strictly increasing closes (close of candle `i` is
`i`), long enough for the MACD line to be non-empty. -/
def ramp40 : List Candle :=
  (List.range 40).map fun i => ⟨i, i, i, i, i, 1⟩

theorem calculateEMA_eq_none (data : List Candle) (period : Nat)
    (h1 : 1 ≤ data.length) (h2 : data.length < period) :
    calculateEMA data period = none := by
  rw [calculateEMA, if_neg (by omega), if_pos h2]

theorem calculateEMA_isSome (data : List Candle) (period : Nat)
    (h1 : 1 ≤ period) (h2 : period ≤ data.length) :
    calculateEMA data period =
      some (⟨(data.getD (period - 1) default).timestamp,
          qdiv (sumCloses (data.take period)) (period : Rat)⟩ ::
        emaSteps (qdiv 2 (qadd (period : Rat) 1))
          (qdiv (sumCloses (data.take period)) (period : Rat)) (data.drop period)) := by
  rw [calculateEMA, if_neg (by omega), if_neg (by omega)]

/-- C1 (amended): on a candle sequence shorter than the period, SMA, RSI,
Bollinger Bands, ADX and ATR return an empty sequence without raising, but
EMA returns an empty sequence only on the empty input and throws a
`TypeError` (modelled by `none`) on any non-empty input shorter than the
period, and MACD consequently returns empty series only on the empty input
and throws on any non-empty input shorter than 26. -/
theorem c1_short_input (data : List Candle) (period : Nat)
    (hp : 1 ≤ period) (hlen : data.length < period) :
    calculateSMA data period = [] ∧
    calculateRSI data period = [] ∧
    (∀ sqrtFn sd, calculateBollingerBands sqrtFn data period sd = ⟨[], [], []⟩) ∧
    calculateADX data period = [] ∧
    calculateATR data period = [] ∧
    calculateEMA data period = (if data.length = 0 then some [] else none) ∧
    (data.length = 0 → calculateMACD data = some ⟨[], [], []⟩) ∧
    (1 ≤ data.length → data.length < 26 → calculateMACD data = none) := by
  have hc1 : data.length - (period - 1) = 0 := by omega
  have hsma : calculateSMA data period = [] := by
    rw [calculateSMA, hc1, List.range'_zero, List.map_nil]
  have hgains : (rsiGains data).length = data.length - 1 := by
    simp [rsiGains, List.length_zipWith, List.length_tail, List.length_map]
  have htrs : (trueRanges data).length = data.length - 1 := by
    simp [trueRanges, List.length_zipWith, List.length_tail]
  have hc2 : data.length - 1 - (period - 1) = 0 := by omega
  refine ⟨hsma, ?_, ?_, ?_, ?_, ?_, ?_, ?_⟩
  · rw [calculateRSI, hgains, hc2, List.range'_zero, List.map_nil]
  · intro sqrtFn sd
    rw [calculateBollingerBands, hsma]
    rfl
  · rw [calculateADX, htrs, hc2, List.range'_zero, List.foldl_nil]
  · have hc3 : data.length - period = 0 := by omega
    rw [calculateATR, hc3, List.range'_zero, List.map_nil]
  · rcases Nat.eq_zero_or_pos data.length with h0 | h0
    · rw [if_pos h0, calculateEMA, if_pos h0]
    · rw [if_neg (by omega)]
      exact calculateEMA_eq_none data period h0 hlen
  · intro h0
    have : data = [] := List.length_eq_zero.mp h0
    subst this
    rfl
  · intro h1 h26
    rcases Nat.lt_or_ge data.length 12 with h12 | h12
    · rw [calculateMACD, calculateEMA_eq_none data 12 h1 h12]
      rfl
    · rw [calculateMACD, calculateEMA_isSome data 12 (by omega) h12,
        calculateEMA_eq_none data 26 h1 h26]
      rfl

/-- Witness for C1 at a one-candle input with period 14. -/
theorem c1_short_input_witness :
    calculateSMA oneCandle 14 = [] ∧
    calculateRSI oneCandle 14 = [] ∧
    (∀ sqrtFn sd, calculateBollingerBands sqrtFn oneCandle 14 sd = ⟨[], [], []⟩) ∧
    calculateADX oneCandle 14 = [] ∧
    calculateATR oneCandle 14 = [] ∧
    calculateEMA oneCandle 14 = (if oneCandle.length = 0 then some [] else none) ∧
    (oneCandle.length = 0 → calculateMACD oneCandle = some ⟨[], [], []⟩) ∧
    (1 ≤ oneCandle.length → oneCandle.length < 26 → calculateMACD oneCandle = none) :=
  c1_short_input oneCandle 14 (by norm_num) (by decide)

/-- Counterexample for C1 as stated: on the non-empty one-candle input,
`calculateEMA` with period 12 does not return an empty sequence — it throws
(the embedding returns `none`, modelling the `TypeError` raised by reading
`data[11].timestamp` of `undefined`). -/
theorem c1_counterexample :
    calculateEMA oneCandle 12 = none ∧ calculateEMA oneCandle 12 ≠ some [] := by
  refine ⟨by decide, by decide⟩

/-- C2 (amended): the fair-value-gap loop runs `i` from `2` to
`data.length - 2`, so the triple `(0, 1, 2)` is never examined: the 3-candle
scenario (candle 0 low 1.1050, candle 2 high 1.1020) yields no gap at all,
and any input of at most 3 candles yields no gaps.  When the same pattern is
placed at candles 1 to 3 of a 4-candle input, exactly one bullish FVG is
detected, with bounds 1.1050 and 1.1020 and strength
`(1.1050 - 1.1020) / 1.1052 * 10000` (the close of the candle whose low
bounds the gap), and it is marked `filled = true` immediately: the fill scan
starts at the triple's own third candle, whose low is at most its own high,
which is the gap's lower bound. -/
theorem c2_fvg_scenario :
    (∀ cfg (data : List Candle), data.length ≤ 3 →
      identifyFairValueGaps cfg data = []) ∧
    identifyFairValueGaps defaultConfig fvgScenario3 = [] ∧
    identifyFairValueGaps defaultConfig fvgScenario4 =
      [⟨.bullish, q 11050 10000, q 11020 10000, 2, true,
        qmul (qdiv (qsub (q 11050 10000) (q 11020 10000)) (q 11052 10000)) 10000⟩] := by
  refine ⟨?_, by decide, by decide⟩
  intro cfg data h
  have hc : data.length - 1 - 2 = 0 := by omega
  rw [identifyFairValueGaps, fvgAll, fvgRaw, hc, List.range'_zero]
  rfl

/-- Witness for C2 (amended) at the 3-candle scenario input. -/
theorem c2_fvg_scenario_witness :
    identifyFairValueGaps defaultConfig fvgScenario3 = [] :=
  c2_fvg_scenario.1 defaultConfig fvgScenario3 (by decide)

/-- Counterexample for C2 as stated: on the 3-candle scenario input the
detector finds no fair value gap at all (the claim expects exactly one
bullish gap), because the scan never examines the triple `(0, 1, 2)`. -/
theorem c2_counterexample :
    identifyFairValueGaps defaultConfig fvgScenario3 = [] ∧
    (identifyFairValueGaps defaultConfig fvgScenario3).length ≠ 1 := by
  exact ⟨by decide, by decide⟩

theorem emaSteps_length (m : Rat) (e : Rat) (cs : List Candle) :
    (emaSteps m e cs).length = cs.length := by
  induction cs generalizing e with
  | nil => rfl
  | cons c cs ih => simp [emaSteps, ih]

theorem emaSteps_get?_timestamp (m : Rat) (e : Rat) (cs : List Candle) (j : Nat) :
    ((emaSteps m e cs).get? j).map IndicatorPoint.timestamp =
      (cs.get? j).map Candle.timestamp := by
  induction cs generalizing e j with
  | nil => rfl
  | cons c cs ih =>
    cases j with
    | zero => rfl
    | succ j => simpa [emaSteps] using ih _ j

theorem ema_length (data : List Candle) (period : Nat)
    (h1 : 1 ≤ period) (h2 : period ≤ data.length) :
    ((calculateEMA data period).getD []).length = data.length - period + 1 := by
  rw [calculateEMA_isSome data period h1 h2]
  simp [emaSteps_length]

theorem ema_get?_timestamp (data : List Candle) (period : Nat)
    (h1 : 1 ≤ period) (h2 : period ≤ data.length) (j : Nat) :
    (((calculateEMA data period).getD []).get? j).map IndicatorPoint.timestamp =
      (data.get? (j + period - 1)).map Candle.timestamp := by
  rw [calculateEMA_isSome data period h1 h2]
  cases j with
  | zero =>
    have hlt : period - 1 < data.length := by omega
    have h0 : 0 + period - 1 = period - 1 := by omega
    simp only [Option.getD_some, List.get?_cons_zero, Option.map_some', h0]
    rw [List.getD_eq_getElem?_getD, List.getElem?_eq_getElem hlt,
      List.get?_eq_getElem?, List.getElem?_eq_getElem hlt]
    rfl
  | succ j =>
    have heq : j + 1 + period - 1 = period + j := by omega
    rw [heq]
    refine ((emaSteps_get?_timestamp _ _ (data.drop period) j).trans ?_)
    rw [List.get?_eq_getElem?, List.get?_eq_getElem?, List.getElem?_drop]

theorem filterMap_eq_map_of_some {α : Type} (l : List Nat) (f : Nat → Option α)
    (g : Nat → α) (h : ∀ a ∈ l, f a = some (g a)) : l.filterMap f = l.map g := by
  induction l with
  | nil => rfl
  | cons x xs ih =>
    rw [List.filterMap_cons, h x (List.mem_cons_self x xs), List.map_cons,
      ih fun a ha => h a (List.mem_cons_of_mem x ha)]

theorem calculateMACD_eq (data : List Candle) (e12 e26 : List IndicatorPoint)
    (h12 : calculateEMA data 12 = some e12) (h26 : calculateEMA data 26 = some e26) :
    calculateMACD data = some (macdFrom e12 e26) := by
  rw [calculateMACD, h12, h26]
  rfl

theorem macdFrom_get? (e12 e26 : List IndicatorPoint) (k : Nat)
    (h1 : e26.length ≤ e12.length) (h2 : e26.length + 11 ≤ e12.length)
    (hk : k + 14 < e26.length) :
    (macdFrom e12 e26).macd.get? k =
      some ⟨(e26.getD (14 + k) default).timestamp,
        qsub (e12.getD (14 + k + 11) default).value (e26.getD (14 + k) default).value⟩ := by
  have hmin : min e12.length e26.length = e26.length := min_eq_right h1
  have hall : ∀ i ∈ List.range' 14 (e26.length - 14), macdPointAt e12 e26 i =
      some ⟨(e26.getD i default).timestamp,
        qsub (e12.getD (i + 11) default).value (e26.getD i default).value⟩ := by
    intro i hi
    rw [List.mem_range'_1] at hi
    have hi26 : i < e26.length := by omega
    have hi12 : i + 11 < e12.length := by omega
    rw [macdPointAt]
    have e1 : e12.get? (i + 12 - 1) = some (e12.getD (i + 11) default) := by
      have h : i + 12 - 1 = i + 11 := by omega
      rw [h, List.get?_eq_getElem?, List.getElem?_eq_getElem hi12,
        List.getD_eq_getElem?_getD, List.getElem?_eq_getElem hi12]
      rfl
    have e2 : e26.get? i = some (e26.getD i default) := by
      rw [List.get?_eq_getElem?, List.getElem?_eq_getElem hi26,
        List.getD_eq_getElem?_getD, List.getElem?_eq_getElem hi26]
      rfl
    rw [e1, e2]
  show ((List.range' 14 (min e12.length e26.length - 14)).filterMap
    (macdPointAt e12 e26)).get? k = _
  rw [hmin, filterMap_eq_map_of_some _ _ _ hall, List.get?_map,
    List.get?_range' 14 1 (by omega)]
  simp

/-- C3 (amended): for a sequence of at least 26 candles, MACD-line point `k`
carries the timestamp of EMA26 point `k + 14` (the candle at index `k + 39`),
but its value subtracts that EMA26 value from EMA12 point `k + 25`, which is
the EMA12 value of the candle at index `k + 36` — three candles earlier, not
the same candle: inside the loop the source pairs `ema12[i + 12 - 1]` (offset
11) with `ema26[i]`, and the loop itself starts at offset `14`, skipping the
first 14 EMA26 points. -/
theorem c3_macd_alignment (data : List Candle) (k : Nat) (h26 : 26 ≤ data.length)
    (hk : k + 14 < data.length - 25) :
    ∃ r e12 e26, calculateEMA data 12 = some e12 ∧ calculateEMA data 26 = some e26 ∧
      calculateMACD data = some r ∧
      r.macd.get? k = some ⟨(e26.getD (k + 14) default).timestamp,
        qsub (e12.getD (k + 25) default).value (e26.getD (k + 14) default).value⟩ ∧
      (e26.get? (k + 14)).map IndicatorPoint.timestamp =
        (data.get? (k + 39)).map Candle.timestamp ∧
      (e12.get? (k + 25)).map IndicatorPoint.timestamp =
        (data.get? (k + 36)).map Candle.timestamp := by
  have he12 := calculateEMA_isSome data 12 (by norm_num) (by omega)
  have he26 := calculateEMA_isSome data 26 (by norm_num) (by omega)
  set e12 := ((calculateEMA data 12).getD []) with hdef12
  set e26 := ((calculateEMA data 26).getD []) with hdef26
  have he12s : calculateEMA data 12 = some e12 := by
    rw [hdef12, he12]
    rfl
  have he26s : calculateEMA data 26 = some e26 := by
    rw [hdef26, he26]
    rfl
  have hl12 : e12.length = data.length - 12 + 1 := by
    rw [hdef12]; exact ema_length data 12 (by norm_num) (by omega)
  have hl26 : e26.length = data.length - 26 + 1 := by
    rw [hdef26]; exact ema_length data 26 (by norm_num) (by omega)
  refine ⟨macdFrom e12 e26, e12, e26, he12s, he26s,
    calculateMACD_eq data e12 e26 he12s he26s, ?_, ?_, ?_⟩
  · have hcomm1 : 14 + k = k + 14 := by omega
    have := macdFrom_get? e12 e26 k (by omega) (by omega) (by omega)
    rw [hcomm1] at this
    rwa [show k + 14 + 11 = k + 25 from by omega] at this
  · have := ema_get?_timestamp data 26 (by norm_num) (by omega) (k + 14)
    have hidx : k + 14 + 26 - 1 = k + 39 := by omega
    rw [hidx] at this
    rw [hdef26]
    exact this
  · have := ema_get?_timestamp data 12 (by norm_num) (by omega) (k + 25)
    have hidx : k + 25 + 12 - 1 = k + 36 := by omega
    rw [hidx] at this
    rw [hdef12]
    exact this

/-- Witness for C3 (amended) at the 40-candle ramp input with `k = 0`. -/
theorem c3_macd_alignment_witness :
    ∃ r e12 e26, calculateEMA ramp40 12 = some e12 ∧ calculateEMA ramp40 26 = some e26 ∧
      calculateMACD ramp40 = some r ∧
      r.macd.get? 0 = some ⟨(e26.getD 14 default).timestamp,
        qsub (e12.getD 25 default).value (e26.getD 14 default).value⟩ ∧
      (e26.get? 14).map IndicatorPoint.timestamp =
        (ramp40.get? 39).map Candle.timestamp ∧
      (e12.get? 25).map IndicatorPoint.timestamp =
        (ramp40.get? 36).map Candle.timestamp :=
  c3_macd_alignment ramp40 0 (by decide) (by decide)

/-- Counterexample for C3 as stated: on the 40-candle ramp the single MACD
point is stamped with the last candle's timestamp (39), but its value is not
the EMA12 value for that same candle (EMA12 index 28) minus the EMA26 value
for that candle (EMA26 index 14): it is 4 rather than 7, because the source
pairs EMA12 index 25 (candle 36) with EMA26 index 14 (candle 39). -/
theorem c3_counterexample :
    ∃ r, calculateMACD ramp40 = some r ∧ r.macd.length = 1 ∧
      (r.macd.getD 0 default).timestamp = 39 ∧
      (((calculateEMA ramp40 12).getD []).get? 28).map IndicatorPoint.timestamp =
        some 39 ∧
      (r.macd.getD 0 default).value ≠
        qsub (((calculateEMA ramp40 12).getD []).getD 28 default).value
          (((calculateEMA ramp40 26).getD []).getD 14 default).value :=
  ⟨(calculateMACD ramp40).getD default, by decide, by decide, by decide, by decide,
    by decide⟩

/-- A throwaway `AdvancedAnalysisResult` for concrete instantiations (the
signal classifier never reads its `advancedAnalysis` parameter). -/
def advDummy : AdvancedAnalysisResult :=
  ⟨[], [], ⟨0, 0, 0, 0, 0⟩, .ranging, .weak, .low, true⟩

/-- C6: the enhanced signal classifier returns HOLD exactly when confidence
is below the configured minimum, or the confluence score is below the
hard-coded minimum confluence threshold 4, or the bullish and bearish tallies
are equal; when all three conditions fail, the signal is non-HOLD with
direction given by the larger tally. -/
theorem c6_signal_classifier (cfg : EnhancedStrategyConfig) (c : ConfluenceOut)
    (adv : AdvancedAnalysisResult) (mi : Micro) :
    (determineSmartMoneySignal cfg c adv mi = .HOLD ↔
      (c.confidence < cfg.minConfidence ∨ c.confluenceScore < 4 ∨
        c.bullish = c.bearish)) ∧
    (cfg.minConfidence ≤ c.confidence → 4 ≤ c.confluenceScore →
      c.bearish < c.bullish →
      (determineSmartMoneySignal cfg c adv mi = .STRONG_BUY ∨
        determineSmartMoneySignal cfg c adv mi = .BUY ∨
        determineSmartMoneySignal cfg c adv mi = .WEAK_BUY)) ∧
    (cfg.minConfidence ≤ c.confidence → 4 ≤ c.confluenceScore →
      c.bullish < c.bearish →
      (determineSmartMoneySignal cfg c adv mi = .STRONG_SELL ∨
        determineSmartMoneySignal cfg c adv mi = .SELL ∨
        determineSmartMoneySignal cfg c adv mi = .WEAK_SELL)) := by
  unfold determineSmartMoneySignal
  by_cases h1 : c.confidence < cfg.minConfidence
  · rw [if_pos h1]
    refine ⟨⟨fun _ => Or.inl h1, fun _ => rfl⟩, ?_, ?_⟩ <;>
      (intro hc; exact absurd h1 (not_lt.mpr hc))
  · rw [if_neg h1]
    by_cases h2 : c.confluenceScore < 4
    · rw [if_pos h2]
      refine ⟨⟨fun _ => Or.inr (Or.inl h2), fun _ => rfl⟩, ?_, ?_⟩ <;>
        (intro _ hc; exact absurd h2 (not_lt.mpr hc))
    · rw [if_neg h2]
      rcases lt_trichotomy c.bullish c.bearish with hbb | hbb | hbb
      · rw [if_neg (by exact not_lt.mpr (le_of_lt hbb)), if_pos hbb]
        refine ⟨⟨fun h => ?_, fun h => ?_⟩, fun _ _ hc => ?_, fun _ _ _ => ?_⟩
        · split_ifs at h
        · rcases h with h | h | h
          · exact absurd h h1
          · exact absurd h h2
          · exact absurd h (ne_of_lt hbb)
        · exact absurd hbb (not_lt.mpr (le_of_lt hc))
        · split_ifs <;> simp
      · rw [if_neg (by rw [hbb]; exact lt_irrefl _),
          if_neg (by rw [hbb]; exact lt_irrefl _)]
        refine ⟨⟨fun _ => Or.inr (Or.inr hbb), fun _ => rfl⟩, ?_, ?_⟩ <;>
          (intro _ _ hc; rw [hbb] at hc; exact absurd hc (lt_irrefl _))
      · rw [if_pos hbb]
        refine ⟨⟨fun h => ?_, fun h => ?_⟩, fun _ _ _ => ?_, fun _ _ hc => ?_⟩
        · split_ifs at h
        · rcases h with h | h | h
          · exact absurd h h1
          · exact absurd h h2
          · exact absurd h (ne_of_gt hbb)
        · split_ifs <;> simp
        · exact absurd hbb (not_lt.mpr (le_of_lt hc))

/-- Witness for C6 at a concrete confluence result (bullish 6, bearish 2,
confidence 80, confluence score 6, default configuration): a weak buy. -/
theorem c6_signal_classifier_witness :
    determineSmartMoneySignal defaultConfig ⟨6, 2, 80, [], 6⟩ advDummy .neutral =
        .STRONG_BUY ∨
      determineSmartMoneySignal defaultConfig ⟨6, 2, 80, [], 6⟩ advDummy .neutral =
        .BUY ∨
      determineSmartMoneySignal defaultConfig ⟨6, 2, 80, [], 6⟩ advDummy .neutral =
        .WEAK_BUY :=
  (c6_signal_classifier defaultConfig ⟨6, 2, 80, [], 6⟩ advDummy .neutral).2.1
    (by decide) (by decide) (by decide)

theorem mem_zipWith {α β γ : Type} {f : α → β → γ} {x : γ} :
    ∀ {l1 : List α} {l2 : List β}, x ∈ List.zipWith f l1 l2 → ∃ a b, x = f a b := by
  intro l1
  induction l1 with
  | nil => intro l2 h; simp at h
  | cons a l1 ih =>
    intro l2 h
    cases l2 with
    | nil => simp at h
    | cons b l2 =>
      rw [List.zipWith_cons_cons, List.mem_cons] at h
      rcases h with h | h
      · exact ⟨a, b, h⟩
      · exact ih h

theorem rsiGains_nonneg (data : List Candle) : ∀ x ∈ rsiGains data, 0 ≤ x := by
  intro x hx
  obtain ⟨a, b, rfl⟩ := mem_zipWith hx
  by_cases h : qsub b a > 0
  · simp only [gt_iff_lt, if_pos h]
    exact le_of_lt h
  · simp only [gt_iff_lt, if_neg h]
    exact le_refl 0

theorem rsiLosses_nonneg (data : List Candle) : ∀ x ∈ rsiLosses data, 0 ≤ x := by
  intro x hx
  obtain ⟨a, b, rfl⟩ := mem_zipWith hx
  by_cases h : qsub b a < 0
  · simp only [if_pos h]
    rw [qsub_eq] at h ⊢
    linarith
  · simp only [if_neg h]
    exact le_refl 0

theorem avgGainAt_nonneg (data : List Candle) (period i : Nat) :
    0 ≤ avgGainAt data period i := by
  rw [avgGainAt, qdiv_eq, qsum_eq]
  apply div_nonneg
  · apply List.sum_nonneg
    intro x hx
    exact rsiGains_nonneg data x
      (List.mem_of_mem_drop (List.mem_of_mem_take hx))
  · positivity

theorem avgLossAt_nonneg (data : List Candle) (period i : Nat) :
    0 ≤ avgLossAt data period i := by
  rw [avgLossAt, qdiv_eq, qsum_eq]
  apply div_nonneg
  · apply List.sum_nonneg
    intro x hx
    exact rsiLosses_nonneg data x
      (List.mem_of_mem_drop (List.mem_of_mem_take hx))
  · positivity

theorem rsiValue_bounds (rs : Rat) (h : 0 ≤ rs) :
    0 ≤ qsub 100 (qdiv 100 (qadd 1 rs)) ∧ qsub 100 (qdiv 100 (qadd 1 rs)) ≤ 100 := by
  rw [qsub_eq, qdiv_eq, qadd_eq]
  have h1 : (0 : Rat) < 1 + rs := by linarith
  have h2 : 100 / (1 + rs) ≤ 100 := by
    apply div_le_self (by norm_num)
    linarith
  have h3 : 0 < 100 / (1 + rs) := by positivity
  constructor <;> linarith

/-- C7: every emitted RSI value lies in `[0, 100]`; and whenever the trailing
average loss for a point's window is zero, that point's value is produced by
the `RS = 100` path, namely `100 - 100/(1 + 100) = 100 - 100/101`. -/
theorem c7_rsi_bounds (data : List Candle) (period : Nat) (hp : 1 ≤ period) :
    (∀ p ∈ calculateRSI data period, 0 ≤ p.value ∧ p.value ≤ 100) ∧
    (∀ j, j < (calculateRSI data period).length →
      avgLossAt data period (period - 1 + j) = 0 →
      ((calculateRSI data period).getD j default).value = 100 - 100 / 101) := by
  constructor
  · intro p hp2
    rw [calculateRSI, List.mem_map] at hp2
    obtain ⟨i, _, rfl⟩ := hp2
    dsimp only
    by_cases hz : avgLossAt data period i = 0
    · rw [if_pos hz]
      exact rsiValue_bounds 100 (by norm_num)
    · rw [if_neg hz]
      apply rsiValue_bounds
      rw [qdiv_eq]
      apply div_nonneg (avgGainAt_nonneg data period i)
      exact avgLossAt_nonneg data period i
  · intro j hj hz
    rw [calculateRSI] at hj ⊢
    rw [List.length_map, List.length_range'] at hj
    rw [List.getD_eq_getElem?_getD, List.getElem?_map,
      List.getElem?_range' (period - 1) 1 (by simpa using hj)]
    dsimp only [Option.map_some', Option.getD_some]
    have hidx : period - 1 + 1 * j = period - 1 + j := by omega
    rw [hidx, if_pos hz, qsub_eq, qdiv_eq, qadd_eq]
    norm_num

/-- Witness for C7 at the flat 30-candle input (where every trailing average
loss is zero) with period 14. -/
theorem c7_rsi_bounds_witness :
    (∀ p ∈ calculateRSI flat30 14, 0 ≤ p.value ∧ p.value ≤ 100) ∧
    (∀ j, j < (calculateRSI flat30 14).length →
      avgLossAt flat30 14 (14 - 1 + j) = 0 →
      ((calculateRSI flat30 14).getD j default).value = 100 - 100 / 101) :=
  c7_rsi_bounds flat30 14 (by norm_num)

/-- Invariant carried through the rule tables: non-negative tallies and
confluence score. -/
def SigOk (s : SigAcc) : Prop :=
  0 ≤ s.bullish ∧ 0 ≤ s.bearish ∧ 0 ≤ s.confluenceScore

theorem addBull_ok {w : Rat} {r : String} {s : SigAcc} (hw : 0 ≤ w) (h : SigOk s) :
    SigOk (addBull w r s) := by
  obtain ⟨h1, h2, h3⟩ := h
  refine ⟨?_, h2, ?_⟩ <;> (rw [addBull]; dsimp only; rw [qadd_eq]; linarith)

theorem addBear_ok {w : Rat} {r : String} {s : SigAcc} (hw : 0 ≤ w) (h : SigOk s) :
    SigOk (addBear w r s) := by
  obtain ⟨h1, h2, h3⟩ := h
  refine ⟨h1, ?_, ?_⟩ <;> (rw [addBear]; dsimp only; rw [qadd_eq]; linarith)

theorem rsiRule_ok (r : Option Rat) {s : SigAcc} (h : SigOk s) : SigOk (rsiRule r s) := by
  cases r with
  | none => exact h
  | some v =>
    simp only [rsiRule]
    split_ifs <;>
      first
        | exact h
        | exact addBull_ok (by norm_num) h
        | exact addBear_ok (by norm_num) h

theorem macdRule_ok (hv pv : Option Rat) {s : SigAcc} (h : SigOk s) :
    SigOk (macdRule hv pv s) := by
  cases hv with
  | none => exact h
  | some a =>
    cases pv with
    | none => exact h
    | some b =>
      simp only [macdRule]
      split_ifs <;>
        first
          | exact h
          | exact addBull_ok (by norm_num) h
          | exact addBear_ok (by norm_num) h

theorem emaRule_ok (a b : Option Rat) (p : Rat) {s : SigAcc} (h : SigOk s) :
    SigOk (emaRule a b p s) := by
  cases a with
  | none => exact h
  | some av =>
    cases b with
    | none => exact h
    | some bv =>
      simp only [emaRule]
      split_ifs <;>
        first
          | exact h
          | exact addBull_ok (by norm_num) h
          | exact addBear_ok (by norm_num) h

theorem fvgRule_ok (fvgs : List FairValueGap) (p : Rat) {s : SigAcc} (h : SigOk s) :
    SigOk (fvgRule fvgs p s) := by
  rw [fvgRule]
  cases hfind : fvgs.find? fun g =>
      decide (g.type = .bullish ∧ g.filled = false ∧
        p ≥ qmul g.low (q 998 1000) ∧ p ≤ qmul g.high (q 1002 1000)) <;>
    cases hfind2 : fvgs.find? fun g =>
        decide (g.type = .bearish ∧ g.filled = false ∧
          p ≤ qmul g.high (q 1002 1000) ∧ p ≥ qmul g.low (q 998 1000)) <;>
    simp only [hfind, hfind2] <;>
    first
      | exact h
      | exact addBull_ok (by norm_num) h
      | exact addBear_ok (by norm_num) h
      | exact addBear_ok (by norm_num) (addBull_ok (by norm_num) h)

theorem obRule_ok (obs : List OrderBlock) (p : Rat) {s : SigAcc} (h : SigOk s) :
    SigOk (obRule obs p s) := by
  rw [obRule]
  cases hfind : obs.find? fun b =>
      decide (b.type = .demand ∧ b.tested = false ∧
        p ≥ qmul b.low (q 998 1000) ∧ p ≤ qmul b.high (q 1002 1000)) <;>
    cases hfind2 : obs.find? fun b =>
        decide (b.type = .supply ∧ b.tested = false ∧
          p ≥ qmul b.low (q 998 1000) ∧ p ≤ qmul b.high (q 1002 1000)) <;>
    simp only [hfind, hfind2] <;>
    first
      | exact h
      | exact addBull_ok (by norm_num) h
      | exact addBear_ok (by norm_num) h
      | exact addBear_ok (by norm_num) (addBull_ok (by norm_num) h)

theorem microRule_ok (m : Micro) {s : SigAcc} (h : SigOk s) : SigOk (microRule m s) := by
  cases m with
  | bullish => exact addBull_ok (by norm_num) h
  | bearish => exact addBear_ok (by norm_num) h
  | neutral => exact h

theorem volumeRule_ok (vp : Volatility) {s : SigAcc} (h : SigOk s) :
    SigOk (volumeRule vp s) := by
  obtain ⟨h1, h2, h3⟩ := h
  cases vp with
  | high =>
    refine ⟨h1, h2, ?_⟩
    rw [volumeRule]
    dsimp only
    rw [qadd_eq]
    linarith
  | medium => exact ⟨h1, h2, h3⟩
  | low => exact ⟨h1, h2, h3⟩

theorem sessionRule_ok (a : Bool) {s : SigAcc} (h : SigOk s) :
    0 ≤ (sessionRule a s).bullish ∧ 0 ≤ (sessionRule a s).bearish ∧
      -1 ≤ (sessionRule a s).confluenceScore := by
  obtain ⟨h1, h2, h3⟩ := h
  cases a with
  | false =>
    refine ⟨h1, h2, ?_⟩
    show -1 ≤ qsub s.confluenceScore 1
    rw [qsub_eq]
    linarith
  | true =>
    refine ⟨h1, h2, ?_⟩
    show -1 ≤ qadd s.confluenceScore 1
    rw [qadd_eq]
    linarith

theorem smaBasicRule_ok (a b : Option Rat) (p : Rat) {s : SigAcc} (h : SigOk s) :
    SigOk (smaBasicRule a b p s) := by
  cases a with
  | none => exact h
  | some av =>
    cases b with
    | none => exact h
    | some bv =>
      simp only [smaBasicRule]
      split_ifs <;>
        first
          | exact h
          | exact addBull_ok (by norm_num) h
          | exact addBear_ok (by norm_num) h

theorem emaBasicRule_ok (a b : Option Rat) {s : SigAcc} (h : SigOk s) :
    SigOk (emaBasicRule a b s) := by
  cases a with
  | none => exact h
  | some av =>
    cases b with
    | none => exact h
    | some bv =>
      simp only [emaBasicRule]
      split_ifs <;>
        first
          | exact h
          | exact addBull_ok (by norm_num) h
          | exact addBear_ok (by norm_num) h

theorem rsiBasicRule_ok (r : Option Rat) {s : SigAcc} (h : SigOk s) :
    SigOk (rsiBasicRule r s) := by
  cases r with
  | none => exact h
  | some v =>
    simp only [rsiBasicRule]
    split_ifs <;>
      first
        | exact h
        | exact addBull_ok (by norm_num) h
        | exact addBear_ok (by norm_num) h

theorem macdBasicRule_ok (m sig hv : Option Rat) {s : SigAcc} (h : SigOk s) :
    SigOk (macdBasicRule m sig hv s) := by
  cases m with
  | none => exact h
  | some mv =>
    cases sig with
    | none => exact h
    | some sv =>
      cases hv with
      | none => exact h
      | some hvv =>
        simp only [macdBasicRule]
        split_ifs <;>
          first
            | exact h
            | exact addBull_ok (by norm_num) h
            | exact addBear_ok (by norm_num) h

theorem bbBasicRule_ok (u l mid : Option Rat) (p : Rat) {s : SigAcc} (h : SigOk s) :
    SigOk (bbBasicRule u l mid p s) := by
  cases u with
  | none => exact h
  | some uv =>
    cases l with
    | none => exact h
    | some lv =>
      cases mid with
      | none => exact h
      | some mv =>
        simp only [bbBasicRule]
        split_ifs <;>
          first
            | exact h
            | exact addBull_ok (by norm_num) h
            | exact addBear_ok (by norm_num) h

theorem analyzeIndicators_ok (analysis : AnalysisResult) (currentPrice : Rat) :
    SigOk (analyzeIndicators analysis currentPrice) := by
  rw [analyzeIndicators]
  exact bbBasicRule_ok _ _ _ _ (macdBasicRule_ok _ _ _ (rsiBasicRule_ok _
    (emaBasicRule_ok _ _ (smaBasicRule_ok _ _ _ ⟨le_refl 0, le_refl 0, le_refl 0⟩))))

theorem calculateConfidence_bounds {s : SigAcc} (h : SigOk s) :
    0 ≤ calculateConfidence s ∧ calculateConfidence s ≤ 100 := by
  obtain ⟨h1, h2, _⟩ := h
  rw [calculateConfidence]
  dsimp only
  rw [qadd_eq]
  by_cases h0 : s.bullish + s.bearish = 0
  · rw [if_pos h0]
    norm_num
  · rw [if_neg h0]
    have htot : 0 < s.bullish + s.bearish := lt_of_le_of_ne (by linarith) (Ne.symm h0)
    have hmaxle : qmax s.bullish s.bearish ≤ s.bullish + s.bearish := by
      rw [qmax_eq, max_le_iff]
      constructor <;> linarith
    have hmax0 : 0 ≤ qmax s.bullish s.bearish := by
      rw [qmax_eq, le_max_iff]
      exact Or.inl h1
    have hconf : 0 ≤ qmul (qdiv (qmax s.bullish s.bearish) (s.bullish + s.bearish)) 100 ∧
        qmul (qdiv (qmax s.bullish s.bearish) (s.bullish + s.bearish)) 100 ≤ 100 := by
      rw [qmul_eq, qdiv_eq]
      constructor
      · positivity
      · have : qmax s.bullish s.bearish / (s.bullish + s.bearish) ≤ 1 :=
          (div_le_one htot).mpr hmaxle
        linarith
    have hboost : 0 ≤ qmin (qmul ((s.reasons.length : Nat) : Rat) 5) 20 := by
      rw [qmin_eq, qmul_eq, le_min_iff]
      constructor
      · positivity
      · norm_num
    rw [qmin_eq, qadd_eq]
    constructor
    · rw [le_min_iff]
      constructor
      · linarith [hconf.1]
      · norm_num
    · exact min_le_right _ _

/-- C5: both confluence engines clamp the final confidence into `[0, 100]`:
the basic strategy's `calculateConfidence` applied to any `analyzeIndicators`
output, and the enhanced strategy's `analyzeAdvancedConfluence` for every
possible input (including the session penalty driving the confluence score
negative). -/
theorem c5_confidence_clamped :
    (∀ (analysis : AnalysisResult) (currentPrice : Rat),
      0 ≤ calculateConfidence (analyzeIndicators analysis currentPrice) ∧
      calculateConfidence (analyzeIndicators analysis currentPrice) ≤ 100) ∧
    (∀ (data : List Candle) (analysis : AnalysisResult)
      (adv : AdvancedAnalysisResult) (currentPrice : Rat)
      (fvgs : List FairValueGap) (obs : List OrderBlock)
      (zones : List LiquidityZone) (vp : Volatility) (mi : Micro),
      0 ≤ (analyzeAdvancedConfluence data analysis adv currentPrice fvgs obs zones
        vp mi).confidence ∧
      (analyzeAdvancedConfluence data analysis adv currentPrice fvgs obs zones
        vp mi).confidence ≤ 100) := by
  constructor
  · intro analysis currentPrice
    exact calculateConfidence_bounds (analyzeIndicators_ok analysis currentPrice)
  · intro data analysis adv currentPrice fvgs obs zones vp mi
    rw [analyzeAdvancedConfluence]
    dsimp only
    have hok : SigOk (volumeRule vp (microRule mi (obRule obs currentPrice
        (fvgRule fvgs currentPrice (emaRule (lastVal analysis.ema12)
          (lastVal analysis.ema26) currentPrice (macdRule
            (lastVal analysis.macd.histogram) (prevVal analysis.macd.histogram)
            (rsiRule (lastVal analysis.rsi) ⟨0, 0, [], 0⟩))))))) :=
      volumeRule_ok _ (microRule_ok _ (obRule_ok _ _ (fvgRule_ok _ _ (emaRule_ok _ _ _
        (macdRule_ok _ _ (rsiRule_ok _ ⟨le_refl 0, le_refl 0, le_refl 0⟩))))))
    obtain ⟨hb, hbr, hcs⟩ := sessionRule_ok adv.sessionFilter hok
    set t := sessionRule adv.sessionFilter (volumeRule vp (microRule mi
      (obRule obs currentPrice (fvgRule fvgs currentPrice (emaRule
        (lastVal analysis.ema12) (lastVal analysis.ema26) currentPrice
        (macdRule (lastVal analysis.macd.histogram) (prevVal analysis.macd.histogram)
          (rsiRule (lastVal analysis.rsi) ⟨0, 0, [], 0⟩))))))) with ht
    have hbase : (50 : Rat) ≤ (if qadd t.bullish t.bearish > 0 then
        qmul (qdiv (qmax t.bullish t.bearish) (qadd t.bullish t.bearish)) 100 else 50) ∧
        (if qadd t.bullish t.bearish > 0 then
        qmul (qdiv (qmax t.bullish t.bearish) (qadd t.bullish t.bearish)) 100 else 50)
          ≤ 100 := by
      by_cases h0 : qadd t.bullish t.bearish > 0
      · rw [if_pos h0]
        rw [qadd_eq] at h0
        have hmaxle : qmax t.bullish t.bearish ≤ t.bullish + t.bearish := by
          rw [qmax_eq, max_le_iff]
          constructor <;> linarith
        have hmaxge : (t.bullish + t.bearish) / 2 ≤ qmax t.bullish t.bearish := by
          rw [qmax_eq, le_max_iff]
          rcases le_total t.bullish t.bearish with hle | hle
          · right; linarith
          · left; linarith
        rw [qmul_eq, qdiv_eq, qadd_eq]
        constructor
        · rw [div_mul_eq_mul_div, le_div_iff h0]
          linarith
        · have : qmax t.bullish t.bearish / (t.bullish + t.bearish) ≤ 1 :=
            (div_le_one h0).mpr hmaxle
          linarith
      · rw [if_neg h0]
        norm_num
    have hboost : (-2 : Rat) ≤ qmin (qmul t.confluenceScore 2) 25 ∧
        qmin (qmul t.confluenceScore 2) 25 ≤ 25 := by
      rw [qmin_eq, qmul_eq]
      constructor
      · rw [le_min_iff]
        constructor
        · linarith
        · norm_num
      · exact min_le_right _ _
    set base := (if qadd t.bullish t.bearish > 0 then
      qmul (qdiv (qmax t.bullish t.bearish) (qadd t.bullish t.bearish)) 100 else 50)
    set boost := qmin (qmul t.confluenceScore 2) 25
    have hc1 : (48 : Rat) ≤ qmin (qadd base boost) 95 ∧
        qmin (qadd base boost) 95 ≤ 95 := by
      rw [qmin_eq, qadd_eq]
      constructor
      · rw [le_min_iff]
        constructor
        · linarith [hbase.1, hboost.1]
        · norm_num
      · exact min_le_right _ _
    by_cases h5 : t.confluenceScore ≥ 5
    · rw [if_pos h5]
      rw [qmax_eq]
      constructor
      · rw [le_max_iff]
        left
        linarith [hc1.1]
      · rw [max_le_iff]
        constructor
        · linarith [hc1.2]
        · norm_num
    · rw [if_neg h5]
      constructor
      · linarith [hc1.1]
      · linarith [hc1.2]

/-- C8: each derived collection is capped to its most recent entries with the
oldest dropped first: the returned list is a suffix (in origin order) of the
full detection list, of length at most 8 for fair value gaps, 6 for order
blocks and 8 for liquidity zones. -/
theorem c8_collection_caps (cfg : EnhancedStrategyConfig) (data : List Candle) :
    ((identifyFairValueGaps cfg data).length ≤ 8 ∧
      identifyFairValueGaps cfg data <:+ fvgAll cfg data) ∧
    ((identifyOrderBlocks cfg data).length ≤ 6 ∧
      identifyOrderBlocks cfg data <:+ obAll cfg data) ∧
    ((identifyLiquidityZones data).length ≤ 8 ∧
      identifyLiquidityZones data <:+ lzAll data) := by
  refine ⟨⟨?_, ?_⟩, ⟨?_, ?_⟩, ⟨?_, ?_⟩⟩
  · rw [identifyFairValueGaps]
    rw [List.length_drop]
    omega
  · exact List.drop_suffix _ _
  · rw [identifyOrderBlocks]
    rw [List.length_drop]
    omega
  · exact List.drop_suffix _ _
  · rw [identifyLiquidityZones]
    rw [List.length_drop]
    omega
  · exact List.drop_suffix _ _

theorem fvgFilled_congr (d : List Candle) (g g2 : FairValueGap)
    (ht : g2.type = g.type) (hh : g2.high = g.high) (hl : g2.low = g.low)
    (hi : g2.index = g.index) : fvgFilled d g2 = fvgFilled d g := by
  rw [fvgFilled, fvgFilled, ht, hh, hl, hi]

theorem fvgAll_filled (cfg : EnhancedStrategyConfig) (d : List Candle)
    (g : FairValueGap) (hg : g ∈ fvgAll cfg d) : g.filled = fvgFilled d g := by
  rw [fvgAll, List.mem_map] at hg
  obtain ⟨g0, _, rfl⟩ := hg
  exact (fvgFilled_congr d g0 _ rfl rfl rfl rfl).symm

theorem fvgFilled_mono (d e : List Candle) (g : FairValueGap)
    (h : fvgFilled d g = true) : fvgFilled (d ++ e) g = true := by
  rw [fvgFilled, List.any_eq_true] at h ⊢
  obtain ⟨j, hj, hcond⟩ := h
  rw [List.mem_range'_1] at hj
  have hjlt : j < d.length := by omega
  refine ⟨j, ?_, ?_⟩
  · rw [List.mem_range'_1, List.length_append]
    omega
  · have hsame : (d ++ e).getD j default = d.getD j default := by
      rw [List.getD_eq_getElem?_getD, List.getD_eq_getElem?_getD,
        List.getElem?_append_left hjlt]
    cases htype : g.type <;> simp only [htype] at hcond ⊢ <;> rw [hsame] <;>
      exact hcond

/-- C9: if a fair value gap detected on `d` is marked filled and a gap with
the same origin index, direction and bounds is detected on `d` extended with
later candles, the re-detected gap is marked filled as well — the flag never
reverts on recomputation over extended data. -/
theorem c9_fill_monotonic (cfg : EnhancedStrategyConfig) (d e : List Candle)
    (g g2 : FairValueGap)
    (hg : g ∈ identifyFairValueGaps cfg d) (hfill : g.filled = true)
    (hg2 : g2 ∈ identifyFairValueGaps cfg (d ++ e))
    (ht : g2.type = g.type) (hh : g2.high = g.high) (hl : g2.low = g.low)
    (hi : g2.index = g.index) : g2.filled = true := by
  have hmem : g ∈ fvgAll cfg d := (List.drop_suffix _ _).subset hg
  have hmem2 : g2 ∈ fvgAll cfg (d ++ e) := (List.drop_suffix _ _).subset hg2
  have h2 : fvgFilled d g = true := by
    rw [← fvgAll_filled cfg d g hmem]
    exact hfill
  rw [fvgAll_filled cfg (d ++ e) g2 hmem2,
    fvgFilled_congr (d ++ e) g g2 ht hh hl hi]
  exact fvgFilled_mono d e g h2

/-- Witness for C9: the bullish gap of the 4-candle scenario is filled on the
original data and is detected (filled) again after appending a fifth candle. -/
theorem c9_fill_monotonic_witness :
    (⟨.bullish, q 11050 10000, q 11020 10000, 2, true,
      qmul (qdiv (qsub (q 11050 10000) (q 11020 10000)) (q 11052 10000)) 10000⟩ :
        FairValueGap).filled = true :=
  c9_fill_monotonic defaultConfig fvgScenario4 fvgExtension
    ⟨.bullish, q 11050 10000, q 11020 10000, 2, true,
      qmul (qdiv (qsub (q 11050 10000) (q 11020 10000)) (q 11052 10000)) 10000⟩
    ⟨.bullish, q 11050 10000, q 11020 10000, 2, true,
      qmul (qdiv (qsub (q 11050 10000) (q 11020 10000)) (q 11052 10000)) 10000⟩
    (by decide) (by decide) (by decide) (by decide) (by decide) (by decide) (by decide)

theorem macdRule_left_zero (p : Option Rat) (s : SigAcc) : macdRule (some 0) p s = s := by
  cases p with
  | none => rfl
  | some pv => simp [macdRule]

theorem macdRule_right_zero (h : Option Rat) (s : SigAcc) :
    macdRule h (some 0) s = s := by
  cases h with
  | none => rfl
  | some hv => simp [macdRule]

theorem rsiRule_zero (s : SigAcc) : rsiRule (some 0) s = s := by
  simp [rsiRule]

theorem rsiBasicRule_zero (s : SigAcc) : rsiBasicRule (some 0) s = s := by
  simp [rsiBasicRule]

theorem macdBasicRule_hist_none (m sig : Option Rat) (s : SigAcc) :
    macdBasicRule m sig none s = s := by
  cases m <;> cases sig <;> rfl

theorem macdBasicRule_hist_zero (m sig : Option Rat) (s : SigAcc) :
    macdBasicRule m sig (some 0) s = s := by
  cases m with
  | none => rfl
  | some mv =>
    cases sig with
    | none => rfl
    | some sv => simp [macdBasicRule]

/-- C10: in both confluence engines a latest value of exactly `0` is
indistinguishable from a missing value.  In the enhanced engine, a zero
newest or previous MACD-histogram value makes the whole evaluation equal to
the one with an empty histogram series, and a zero latest RSI equal to the
one with an empty RSI series; the basic engine treats a zero latest RSI or a
zero latest MACD histogram value the same way. -/
theorem c10_zero_is_absent :
    (∀ (data : List Candle) (analysis : AnalysisResult)
      (adv : AdvancedAnalysisResult) (currentPrice : Rat)
      (fvgs : List FairValueGap) (obs : List OrderBlock)
      (zones : List LiquidityZone) (vp : Volatility) (mi : Micro),
      (lastVal analysis.macd.histogram = some 0 ∨
        prevVal analysis.macd.histogram = some 0) →
      analyzeAdvancedConfluence data analysis adv currentPrice fvgs obs zones vp mi =
        analyzeAdvancedConfluence data
          { analysis with macd := { analysis.macd with histogram := [] } }
          adv currentPrice fvgs obs zones vp mi) ∧
    (∀ (data : List Candle) (analysis : AnalysisResult)
      (adv : AdvancedAnalysisResult) (currentPrice : Rat)
      (fvgs : List FairValueGap) (obs : List OrderBlock)
      (zones : List LiquidityZone) (vp : Volatility) (mi : Micro),
      lastVal analysis.rsi = some 0 →
      analyzeAdvancedConfluence data analysis adv currentPrice fvgs obs zones vp mi =
        analyzeAdvancedConfluence data { analysis with rsi := [] }
          adv currentPrice fvgs obs zones vp mi) ∧
    (∀ (analysis : AnalysisResult) (currentPrice : Rat),
      lastVal analysis.rsi = some 0 →
      analyzeIndicators analysis currentPrice =
        analyzeIndicators { analysis with rsi := [] } currentPrice) ∧
    (∀ (analysis : AnalysisResult) (currentPrice : Rat),
      lastVal analysis.macd.histogram = some 0 →
      analyzeIndicators analysis currentPrice =
        analyzeIndicators
          { analysis with macd := { analysis.macd with histogram := [] } }
          currentPrice) := by
  refine ⟨?_, ?_, ?_, ?_⟩
  · intro data analysis adv currentPrice fvgs obs zones vp mi h
    simp only [analyzeAdvancedConfluence]
    rcases h with h | h
    · rw [h, macdRule_left_zero]
      rw [show lastVal ([] : List IndicatorPoint) = none from rfl,
        show prevVal ([] : List IndicatorPoint) = none from rfl]
      rfl
    · rw [h, macdRule_right_zero]
      rw [show lastVal ([] : List IndicatorPoint) = none from rfl,
        show prevVal ([] : List IndicatorPoint) = none from rfl]
      rfl
  · intro data analysis adv currentPrice fvgs obs zones vp mi h
    simp only [analyzeAdvancedConfluence]
    rw [h, rsiRule_zero, show lastVal ([] : List IndicatorPoint) = none from rfl]
    rfl
  · intro analysis currentPrice h
    simp only [analyzeIndicators]
    rw [h, rsiBasicRule_zero, show lastVal ([] : List IndicatorPoint) = none from rfl]
    rfl
  · intro analysis currentPrice h
    simp only [analyzeIndicators]
    rw [h, macdBasicRule_hist_zero,
      show lastVal ([] : List IndicatorPoint) = none from rfl,
      macdBasicRule_hist_none]

/-- A concrete analysis record whose latest RSI value and latest MACD
histogram value are both exactly zero. -/
def analysisZero : AnalysisResult :=
  ⟨[], [], [], [], [⟨0, 0⟩], ⟨[], [], [⟨1, 1⟩, ⟨2, 0⟩]⟩, ⟨[], [], []⟩, ⟨[], []⟩⟩

/-- Witness for C10 at `analysisZero`. -/
theorem c10_zero_is_absent_witness :
    (analyzeAdvancedConfluence [] analysisZero advDummy 1 [] [] [] .low .neutral =
      analyzeAdvancedConfluence []
        { analysisZero with macd := { analysisZero.macd with histogram := [] } }
        advDummy 1 [] [] [] .low .neutral) ∧
    (analyzeAdvancedConfluence [] analysisZero advDummy 1 [] [] [] .low .neutral =
      analyzeAdvancedConfluence [] { analysisZero with rsi := [] }
        advDummy 1 [] [] [] .low .neutral) ∧
    (analyzeIndicators analysisZero 1 =
      analyzeIndicators { analysisZero with rsi := [] } 1) ∧
    (analyzeIndicators analysisZero 1 =
      analyzeIndicators
        { analysisZero with macd := { analysisZero.macd with histogram := [] } } 1) :=
  ⟨c10_zero_is_absent.1 [] analysisZero advDummy 1 [] [] [] .low .neutral
      (Or.inl (by decide)),
    c10_zero_is_absent.2.1 [] analysisZero advDummy 1 [] [] [] .low .neutral (by decide),
    c10_zero_is_absent.2.2.1 analysisZero 1 (by decide),
    c10_zero_is_absent.2.2.2 analysisZero 1 (by decide)⟩

/-- `analyzeAdvancedConfluence` never reads the `bollingerBands` or
`stochastic` members of the analysis record. -/
theorem confluence_bb_irrel (data : List Candle) (analysis : AnalysisResult)
    (adv : AdvancedAnalysisResult) (currentPrice : Rat)
    (fvgs : List FairValueGap) (obs : List OrderBlock)
    (zones : List LiquidityZone) (vp : Volatility) (mi : Micro)
    (bb : BollingerResult) (st : StochasticResult) :
    analyzeAdvancedConfluence data
        { analysis with bollingerBands := bb, stochastic := st }
        adv currentPrice fvgs obs zones vp mi =
      analyzeAdvancedConfluence data analysis adv currentPrice fvgs obs zones vp mi :=
  rfl

/-- `analyzeAll` applied to the flat 30-candle input, spelled out field by
field (what the enhanced pipeline receives as its `analysis` argument). -/
def analysisFlat (sqrtFn : Rat → Rat) : AnalysisResult :=
  { sma20 := calculateSMA flat30 20
    sma50 := calculateSMA flat30 50
    ema12 := (calculateEMA flat30 12).getD []
    ema26 := (calculateEMA flat30 26).getD []
    rsi := calculateRSI flat30 14
    macd := (calculateMACD flat30).getD default
    bollingerBands := calculateBollingerBands sqrtFn flat30 20 2
    stochastic := ⟨[], []⟩ }

/-- The advanced analysis of the flat input, with the wall-clock
`sessionFilter` left as a parameter. -/
def advFlat (active : Bool) : AdvancedAnalysisResult :=
  { adx := calculateADX flat30 14
    atr := calculateATR flat30 14
    pivotPoints := ⟨0, 0, 0, 0, 0⟩
    marketRegime := .ranging
    trendStrength := .weak
    volatility := .low
    sessionFilter := active }

/-- The structure-detector outputs of the flat input. -/
def fvgsFlat : List FairValueGap := identifyFairValueGaps defaultConfig flat30

/-- Order blocks of the flat input. -/
def obsFlat : List OrderBlock := identifyOrderBlocks defaultConfig flat30

/-- Market microstructure of the flat input. -/
def microFlat : Micro := analyzeMarketMicrostructure flat30 fvgsFlat obsFlat

/-- The confluence evaluation of the flat input, as `generateEnhancedSignal`
assembles it (current price `1.1`, the last candle's close). -/
def confFlat (sqrtFn : Rat → Rat) (active : Bool) : ConfluenceOut :=
  analyzeAdvancedConfluence flat30 (analysisFlat sqrtFn) (advFlat active) (q 11 10)
    fvgsFlat obsFlat (identifyLiquidityZones flat30) (analyzeVolumeProfile flat30)
    microFlat

/-- The signal of the flat input. -/
def signalFlat (sqrtFn : Rat → Rat) (active : Bool) : EnhancedSignalType :=
  determineSmartMoneySignal defaultConfig (confFlat sqrtFn active) (advFlat active)
    microFlat

/-- C4 (amended): for 30 identical candles the RSI series is present, not
absent: it consists of 16 points with value `100 - 100/101` (about 99.01),
produced by the `avgLoss = 0` path without throwing.  That value triggers the
RSI-overbought rule, so the confluence score is 5 with the session filter
active (3 when inactive) and the generated signal is WEAK_SELL with the
session active, HOLD only when it is inactive. -/
theorem c4_flat_market (sqrtFn : Rat → Rat) :
    analyzeAll sqrtFn flat30 = some (analysisFlat sqrtFn) ∧
    (analysisFlat sqrtFn).rsi = List.replicate 16 ⟨0, q 10000 101⟩ ∧
    q 10000 101 = 100 - 100 / 101 ∧
    (confFlat sqrtFn true).confluenceScore = 5 ∧
    (confFlat sqrtFn false).confluenceScore = 3 ∧
    signalFlat sqrtFn true = .WEAK_SELL ∧
    signalFlat sqrtFn false = .HOLD := by
  have hbase : ∀ active, confFlat sqrtFn active = confFlat (fun x => x) active := by
    intro active
    show analyzeAdvancedConfluence flat30 (analysisFlat sqrtFn) _ _ _ _ _ _ _ = _
    have h1 : analysisFlat sqrtFn =
        { analysisFlat (fun x => x) with
            bollingerBands := calculateBollingerBands sqrtFn flat30 20 2
            stochastic := ⟨[], []⟩ } := rfl
    rw [h1, confluence_bb_irrel]
    rfl
  refine ⟨rfl, ?_, ?_, ?_, ?_, ?_, ?_⟩
  · show calculateRSI flat30 14 = List.replicate 16 ⟨0, q 10000 101⟩
    decide
  · rw [q, Rat.divInt_eq_div]
    norm_num
  · rw [hbase]
    decide
  · rw [hbase]
    decide
  · rw [signalFlat, hbase]
    decide
  · rw [signalFlat, hbase]
    decide

/-- Counterexample for C4 as stated: the RSI series of the flat input is not
absent (it has 16 points), and during an active session the generated signal
is WEAK_SELL, not HOLD. -/
theorem c4_counterexample :
    calculateRSI flat30 14 ≠ [] ∧
    signalFlat (fun x => x) true = .WEAK_SELL ∧
    (EnhancedSignalType.WEAK_SELL = EnhancedSignalType.HOLD → False) := by
  refine ⟨by decide, by decide, by decide⟩
